import Mathlib

/-! Verification development for the network-service SDK.

Two elements are embedded.

* `heal`: the self-healing reconciliation element (tracked-connection
  registry, reconciliation loop, heal scheduler).  Its implementation is not
  among the sources (only `heal/client_test.go` is), so it is modelled from
  the specification, sections 3 to 5.
* `netsvcmonitor`: the chain element of `netsvcmonitor/server.go`
  (`monitorServer.Request`, `monitorServer.Close` and the goroutine started by
  `Request`), translated from the source.
* `authorize`: the registry client of `authorize/nse_client.go`
  (`authorizeNSEClient.Register`, `authorizeNSEClient.Unregister`), translated
  from the source.
-/

namespace networkservice

/-- A mechanism: its class and its type. -/
structure Mechanism where
  cls : String := ""
  type : String := ""
  deriving DecidableEq, Repr

/-- Control-plane record of a connection, with the fields the sources read:
the stable `id`, the network service, and the payload (mechanism, endpoint
name, labels). -/
structure Connection where
  id : String := ""
  networkService : String := ""
  mechanism : Option Mechanism := none
  networkServiceEndpointName : String := ""
  labels : List (String × String) := []
  deriving DecidableEq, Repr

/-- The full input needed to (re-)establish a connection. -/
structure NetworkServiceRequest where
  connection : Connection := {}
  mechanismPreferences : List Mechanism := []
  deriving DecidableEq, Repr

end networkservice

namespace registry

/-- A network service of the registry, with its name and its payload. -/
structure NetworkService where
  name : String := ""
  payload : List String := []
  deriving DecidableEq, Repr

/-- An endpoint of the registry, with the fields the sources read (`Name`,
`PathIds`) and the names of the network services it serves. -/
structure NetworkServiceEndpoint where
  name : String := ""
  networkServiceNames : List String := []
  pathIds : List String := []
  deriving DecidableEq, Repr

end registry

/-! ## The heal element: definitions -/

namespace heal

open networkservice

/-- The three kinds of notification of the monitoring stream. -/
inductive ConnectionEventType where
  | INITIAL_STATE_TRANSFER
  | UPDATE
  | DELETE
  deriving DecidableEq, Repr

/-- A notification: its type and a mapping from connection ID to snapshot. -/
structure ConnectionEvent where
  type : ConnectionEventType
  connections : List (String × Connection)
  deriving DecidableEq, Repr

/-- Modelled from the spec: the registry entry of section 3 (the heal element
itself is not among the sources). -/
structure TrackedEntry where
  id : String
  lastRequest : NetworkServiceRequest
  lastKnownConnection : Connection
  healInFlight : Bool
  deriving DecidableEq, Repr

/-- Modelled from the spec: the registry is the in-memory bookkeeping keyed by
connection identifier; an association list, the first entry of an ID counts. -/
abbrev Registry := List TrackedEntry

/-- Modelled from the spec: `get(id)`, lookup with no side effects. -/
def get (r : Registry) (id : String) : Option TrackedEntry :=
  r.find? (fun e => e.id == id)

/-- Modelled from the spec: `remove(id)` deletes the entry. -/
def remove (r : Registry) (id : String) : Registry :=
  r.filter (fun e => e.id != id)

/-- Modelled from the spec: `put(id, request, connection)` inserts or
overwrites the entry and clears `healInFlight`. -/
def put (r : Registry) (id : String) (request : NetworkServiceRequest)
    (connection : Connection) : Registry :=
  { id := id, lastRequest := request, lastKnownConnection := connection,
    healInFlight := false } :: remove r id

/-- Modelled from the spec: `snapshotIDs()`, the set of all tracked IDs. -/
def snapshotIDs (r : Registry) : List String :=
  (r.map (fun e => e.id)).dedup

/-- Sets the `healInFlight` flag of the entries of `id` to `b`. -/
def setHealInFlight (r : Registry) (id : String) (b : Bool) : Registry :=
  r.map (fun e => if e.id = id then { e with healInFlight := b } else e)

/-- Modelled from the spec: `tryBeginHeal(id)` sets `healInFlight` to true and
returns whether the caller won the race (false if already in flight, and
false when there is no entry whose flag could be set). -/
def tryBeginHeal (r : Registry) (id : String) : Bool × Registry :=
  match get r id with
  | some e => if e.healInFlight then (false, r) else (true, setHealInFlight r id true)
  | none => (false, r)

/-- One replayed request issued by the heal scheduler: the ID it heals and the
payload handed to `forwardRequest`. -/
abbrev HealCall := String × NetworkServiceRequest

/-- Modelled from the spec: the state of one core instance.  `confirmed` is
the loop's confirmed-by-server snapshot, `healCalls` records every heal
`forwardRequest` issued so far (oldest first), `pending` holds the heal
attempts that were issued and have not completed yet. -/
structure Core where
  registry : Registry
  confirmed : List (String × Connection)
  healCalls : List HealCall
  pending : List HealCall
  deriving DecidableEq, Repr

/-- A freshly created core: nothing tracked, nothing confirmed, no heal. -/
def Core.init : Core :=
  { registry := [], confirmed := [], healCalls := [], pending := [] }

/-- Modelled from the spec: `scheduleHeal(id)`, steps 1 to 3.  The caller must
win `tryBeginHeal`; the entry is looked up again (abort when it vanished); the
stored `lastRequest` is then replayed through `forwardRequest`. -/
def scheduleHeal (c : Core) (id : String) : Core :=
  match tryBeginHeal c.registry id with
  | (false, _) => c
  | (true, r) =>
    match get r id with
    | none => { c with registry := r }
    | some e =>
      { c with registry := r,
               healCalls := c.healCalls ++ [(id, e.lastRequest)],
               pending := c.pending ++ [(id, e.lastRequest)] }

/-- Schedules a heal for each ID of a batch, in order. -/
def scheduleAll (c : Core) (ids : List String) : Core :=
  ids.foldl scheduleHeal c

/-- Removes the pending heal attempts of `id`. -/
def dropPending (p : List HealCall) (id : String) : List HealCall :=
  p.filter (fun h => h.1 != id)

/-- Modelled from the spec: `scheduleHeal` step 4, a heal attempt of `id`
returned `newConnection`.  The entry is re-checked before the final `put`: a
vanished entry (explicit Close since the heal began) aborts the heal. -/
def healSucceeded (c : Core) (id : String) (newConnection : Connection) : Core :=
  match c.pending.find? (fun h => h.1 == id) with
  | none => c
  | some h =>
    match get c.registry id with
    | none => { c with pending := dropPending c.pending id }
    | some _ =>
      { c with registry := put c.registry id h.2 newConnection,
               pending := dropPending c.pending id }

/-- Modelled from the spec: `scheduleHeal` step 5, a heal attempt of `id`
failed: it is abandoned and `healInFlight` is cleared. -/
def healFailed (c : Core) (id : String) : Core :=
  match c.pending.find? (fun h => h.1 == id) with
  | none => c
  | some _ =>
    { c with registry := setHealInFlight c.registry id false,
             pending := dropPending c.pending id }

/-- The IDs of a `Connections` mapping. -/
def keys (m : List (String × Connection)) : List String :=
  m.map (fun kv => kv.1)

/-- Merges the connections of an `UPDATE` into the confirmed snapshot. -/
def merge (confirmed updates : List (String × Connection)) : List (String × Connection) :=
  updates.foldl (fun acc kv => kv :: acc.filter (fun old => old.1 != kv.1)) confirmed

/-- Removes the IDs of a `DELETE` from the confirmed snapshot. -/
def unconfirm (confirmed : List (String × Connection)) (ids : List String) :
    List (String × Connection) :=
  confirmed.filter (fun kv => !(ids.contains kv.1))

/-- The tracked IDs that are not present in a snapshot. -/
def missingFrom (r : Registry) (snapshot : List (String × Connection)) : List String :=
  (snapshotIDs r).filter (fun id => !((keys snapshot).contains id))

/-- The IDs of an event that are still present in the registry. -/
def stillTracked (r : Registry) (m : List (String × Connection)) : List String :=
  (keys m).filter (fun id => (get r id).isSome)

/-- Modelled from the spec: the event classification table of section 4.2. -/
def handleEvent (c : Core) (e : ConnectionEvent) : Core :=
  match e.type with
  | .INITIAL_STATE_TRANSFER =>
    scheduleAll { c with confirmed := e.connections } (missingFrom c.registry e.connections)
  | .UPDATE => { c with confirmed := merge c.confirmed e.connections }
  | .DELETE =>
    let c' := scheduleAll c (stillTracked c.registry e.connections)
    { c' with confirmed := unconfirm c'.confirmed (keys e.connections) }

/-- Modelled from the spec: the subscription terminated (context canceled or
stream closed): one heal is scheduled for every currently tracked ID. -/
def subscriptionTerminated (c : Core) : Core :=
  scheduleAll c (snapshotIDs c.registry)

/-- Modelled from the spec: `Request` of section 4.4.  An in-flight heal of
the same ID is superseded first; the request is forwarded (`outcome` is what
`forwardRequest` returned); on success the entry is `put`; the outcome is
returned unchanged. -/
def Request (c : Core) (request : NetworkServiceRequest)
    (outcome : Except String Connection) : Except String Connection × Core :=
  let c' := { c with pending := dropPending c.pending request.connection.id }
  match outcome with
  | .error _ => (outcome, c')
  | .ok conn =>
    (outcome, { c' with registry := put c'.registry request.connection.id request conn })

/-- Modelled from the spec: `Close` of section 4.4.  The close is forwarded
(`outcome` is the error `forwardClose` returned, if any); regardless of the
outcome the ID is removed from the registry. -/
def Close (c : Core) (connection : Connection) (outcome : Option String) :
    Option String × Core :=
  (outcome, { c with registry := remove c.registry connection.id })

/-- What can happen to a core instance. -/
inductive Step where
  | request (request : NetworkServiceRequest) (outcome : Except String Connection)
  | close (connection : Connection) (outcome : Option String)
  | event (e : ConnectionEvent)
  | terminated
  | healSucceeded (id : String) (newConnection : Connection)
  | healFailed (id : String)

/-- One transition of a core instance. -/
def step (c : Core) : Step → Core
  | .request request outcome => (Request c request outcome).2
  | .close connection outcome => (Close c connection outcome).2
  | .event e => handleEvent c e
  | .terminated => subscriptionTerminated c
  | .healSucceeded id newConnection => healSucceeded c id newConnection
  | .healFailed id => healFailed c id

/-- Runs a sequence of transitions. -/
def run (c : Core) (steps : List Step) : Core :=
  steps.foldl step c

/-- The heal calls recorded for one ID. -/
def callsFor (calls : List HealCall) (id : String) : List HealCall :=
  calls.filter (fun h => h.1 == id)

/-- An event after which the server still has connection `id`: an `UPDATE`,
or an `INITIAL_STATE_TRANSFER` whose snapshot names `id`. -/
def confirms (e : ConnectionEvent) (id : String) : Bool :=
  match e.type with
  | .INITIAL_STATE_TRANSFER => (keys e.connections).contains id
  | .UPDATE => true
  | .DELETE => false

/-- Delivers a sequence of events in arrival order. -/
def handleEvents (c : Core) (events : List ConnectionEvent) : Core :=
  events.foldl handleEvent c

/-- The connection `conn-1` of `client_test.go`. -/
def conn1 : Connection := { id := "conn-1", networkService := "ns-1" }

/-- The connection `conn-2` of `client_test.go`. -/
def conn2 : Connection := { id := "conn-2", networkService := "ns-2" }

/-- The request of `conn-1` issued by the tests. -/
def request1 : NetworkServiceRequest := { connection := conn1 }

/-- The request of `conn-2` issued by the tests. -/
def request2 : NetworkServiceRequest := { connection := conn2 }

/-- The request a heal of `id` would replay right now: the stored
`lastRequest` when the ID is tracked and no heal of it is in flight. -/
def healable (r : Registry) (id : String) : Option NetworkServiceRequest :=
  match get r id with
  | some e => if e.healInFlight then none else some e.lastRequest
  | none => none

/-- The heal call a `scheduleHeal` of `id` issues: one replay of the stored
request when the ID is healable, none otherwise. -/
def replay (r : Registry) (id : String) : List HealCall :=
  match healable r id with
  | some q => [(id, q)]
  | none => []

/-- The invariant of the heal scheduler: no ID has two pending heal attempts,
and an ID with a pending attempt is not healable (it is untracked or its
`healInFlight` flag is set). -/
def OneInFlight (c : Core) : Prop :=
  ∀ id : String, (callsFor c.pending id).length ≤ 1
    ∧ (callsFor c.pending id ≠ [] → healable c.registry id = none)

end heal

/-! ## The `netsvcmonitor` element: definitions -/

namespace netsvcmonitor

open networkservice

/-- A Go context: an externally owned root, or a context derived from a
parent by `context.WithCancel`, with the identity of its own cancel signal. -/
inductive Context where
  | root (name : String)
  | withCancel (parent : Context) (id : Nat)
  deriving DecidableEq, Repr

/-- The context handed to `Request` and `Close`: the Go context and the
identity of the per-connection metadata map it carries, where the cancel
function of the request is kept. -/
structure CallContext where
  ctx : Context
  metadata : Nat
  deriving DecidableEq, Repr

/-- A started `monitorNetworkServiceGoroutine` with what it captured:
`monitorCtx`, `conn` (the clone of the response), `resp` and the call context
`ctx` it closes the connection through. -/
structure Monitor where
  monitorCtx : Context
  conn : Option Connection
  resp : Option Connection
  ctx : CallContext
  deriving DecidableEq, Repr

/-- The tracking state of the element and of the contexts it created:
`canceled` holds the cancel signals fired by cancel functions, `rootsDone` the
roots canceled by their owners, `store` the cancel function kept per metadata
map (a cancel function is identified by the signal it fires), `monitors` the
goroutines started, `nextId` the identity of the next derived context. -/
structure World where
  canceled : List Nat
  rootsDone : List String
  store : List (Nat × Nat)
  monitors : List Monitor
  nextId : Nat
  deriving DecidableEq, Repr

/-- The world before any call. -/
def World.empty : World :=
  { canceled := [], rootsDone := [], store := [], monitors := [], nextId := 0 }

/-- What `ctx.Err() != nil` reports: the context or one of its ancestors is
canceled. -/
def Context.err (w : World) : Context → Bool
  | .root name => w.rootsDone.contains name
  | .withCancel parent id => w.canceled.contains id || parent.err w

/-- What an element does that the rest of the program can observe, in order. -/
inductive Effect where
  | cancel (cancel : Nat)
  | forwardRequest (request : NetworkServiceRequest)
  | forwardClose (conn : Connection)
  | storeCancelFunction (metadata : Nat) (cancel : Nat)
  | go (monitorCtx : Context)
  deriving DecidableEq, Repr

/-- The rest of the chain, `next.Server(ctx)`: what its `Request` and its
`Close` return (a possibly nil response, a possibly nil error). -/
structure NextServer where
  Request : NetworkServiceRequest → Option Connection × Option String
  Close : Connection → Option Unit × Option String

/-- The element: `monitorServer` with its chain-lifetime context. -/
structure monitorServer where
  chainCtx : Context
  deriving DecidableEq, Repr

/-- The outcome of a call: the returned pair, the world after the call and the
effects of the call in order. -/
structure Outcome (α : Type) where
  value : α
  world : World
  trace : List Effect

/-- Modelled from the spec: `loadCancelFunction(ctx)` of the context-keyed
store of cancel functions (its file is not among the sources): a lookup. -/
def loadCancelFunction (w : World) (ctx : CallContext) : Option Nat :=
  w.store.lookup ctx.metadata

/-- Modelled from the spec: `storeCancelFunction(ctx, cancel)` of the
context-keyed store of cancel functions (its file is not among the sources):
inserts or overwrites the function kept for the metadata map of `ctx`. -/
def storeCancelFunction (w : World) (ctx : CallContext) (cancel : Nat) : World :=
  { w with store := (ctx.metadata, cancel) :: w.store.filter (fun kv => kv.1 != ctx.metadata) }

/-- Invoking a cancel function fires its signal. -/
def invoke (w : World) (cancel : Nat) : World :=
  { w with canceled := cancel :: w.canceled }

/-- The call `context.WithCancel(parent)`: a new derived context, its cancel
function and the world in which the identity is taken. -/
def withCancel (w : World) (parent : Context) : Context × Nat × World :=
  (.withCancel parent w.nextId, w.nextId, { w with nextId := w.nextId + 1 })

/-- The first statement of `Request` and of `Close`:
`if cancel, ok := loadCancelFunction(ctx); ok { cancel() }`. -/
def cancelStored (w : World) (ctx : CallContext) : World × List Effect :=
  match loadCancelFunction w ctx with
  | some cancel => (invoke w cancel, [.cancel cancel])
  | none => (w, [])

/-- The method `monitorServer.Request` of `server.go`. -/
def monitorServer.Request (m : monitorServer) (next : NextServer) (w : World)
    (ctx : CallContext) (request : NetworkServiceRequest) :
    Outcome (Option Connection × Option String) :=
  let (w1, t1) := cancelStored w ctx
  let (resp, err) := next.Request request
  let t2 := t1 ++ [.forwardRequest request]
  match err with
  | some e => { value := (resp, some e), world := w1, trace := t2 }
  | none =>
    let conn := resp
    let (monitorCtx, cancel, w2) := withCancel w1 m.chainCtx
    let w3 := storeCancelFunction w2 ctx cancel
    let w4 := { w3 with monitors := w3.monitors ++
                  [{ monitorCtx := monitorCtx, conn := conn, resp := resp, ctx := ctx }] }
    { value := (resp, err), world := w4,
      trace := t2 ++ [.storeCancelFunction ctx.metadata cancel, .go monitorCtx] }

/-- The method `monitorServer.Close` of `server.go`. -/
def monitorServer.Close (_ : monitorServer) (next : NextServer) (w : World)
    (ctx : CallContext) (conn : Connection) : Outcome (Option Unit × Option String) :=
  let (w1, t1) := cancelStored w ctx
  { value := next.Close conn, world := w1, trace := t1 ++ [.forwardClose conn] }

/-- A call on the element. -/
inductive Call where
  | request (next : NextServer) (ctx : CallContext) (request : NetworkServiceRequest)
  | close (next : NextServer) (ctx : CallContext) (conn : Connection)

/-- The world after one call. -/
def call (m : monitorServer) (w : World) : Call → World
  | .request next ctx request => (m.Request next w ctx request).world
  | .close next ctx conn => (m.Close next w ctx conn).world

/-- The world after a sequence of calls. -/
def calls (m : monitorServer) (w : World) (cs : List Call) : World :=
  cs.foldl (call m) w

/-- Whether the goroutine of a monitor still runs as far as its context is
concerned: `monitorCtx.Err() == nil`. -/
def Monitor.live (w : World) (mon : Monitor) : Bool :=
  !(mon.monitorCtx.err w)

/-- Every identity in use was handed out by `withCancel`. -/
def WellFormed (w : World) : Prop :=
  (∀ c ∈ w.canceled, c < w.nextId) ∧ (∀ kv ∈ w.store, kv.2 < w.nextId)

/-- Every monitor runs on a derived context, and a monitor whose own cancel
signal has not fired is the one whose cancel function is kept in the store
for its request. -/
def Owned (w : World) : Prop :=
  ∀ mon ∈ w.monitors, ∃ p id, mon.monitorCtx = Context.withCancel p id
    ∧ (id ∉ w.canceled → w.store.lookup mon.ctx.metadata = some id)

/-- A rest of the chain that accepts everything, like the mock server of the
tests: `Request` returns the connection of the request. -/
def acceptAll : NextServer :=
  { Request := fun request => (some request.connection, none),
    Close := fun _ => (some (), none) }

/-- A rest of the chain whose `Request` and `Close` fail. -/
def rejectAll : NextServer :=
  { Request := fun _ => (none, some "rejected"),
    Close := fun _ => (none, some "rejected") }

/-- The element used in the examples, on the chain context `chain`. -/
def server : monitorServer := { chainCtx := .root "chain" }

/-- The call context used in the examples. -/
def callCtx : CallContext := { ctx := .root "call", metadata := 7 }

/-- The world after one successful `Request` on `callCtx`. -/
def trackedWorld : World := (server.Request acceptAll World.empty callCtx {}).world

/-- The monitor started by that `Request`. -/
def firstMonitor : Monitor :=
  { monitorCtx := .withCancel (.root "chain") 0, conn := some {}, resp := some {},
    ctx := callCtx }

/-- The world in which the request is forwarded. -/
def afterCancel (w : World) (ctx : CallContext) : World := (cancelStored w ctx).1

/-- What the goroutine of a monitor meets at the statement it is at: the
outcome of `m.nsClient.Find` (an error, or a stream), or what the select on
the stream of network services receives (the stream is closed, or an update
`netsvc` together with `lookup`, the outcome of `m.nseClient.Find` followed by
`ReadNetworkServiceEndpointList`). -/
inductive Observation where
  | findFailed (err : String)
  | findStream
  | streamClosed
  | update (netsvc : registry.NetworkService)
      (lookup : Except String (List registry.NetworkServiceEndpoint))

/-- Where the goroutine is: at the head of the outer loop (about to call
`m.nsClient.Find`), in the inner loop on a live stream, or returned. -/
inductive Phase where
  | finding
  | watching
  | returned
  deriving DecidableEq, Repr

/-- What the goroutine does that others can observe. -/
inductive MonitorAction where
  | findNetworkService (name : String)
  | findEndpoint (name : String)
  | beginClose (ctx : CallContext)
  | sleep
  deriving DecidableEq, Repr

/-- The goroutine of a monitor: where it is and what it did so far. -/
structure Goroutine where
  phase : Phase
  actions : List MonitorAction
  deriving DecidableEq, Repr

/-- The goroutine as `go monitorNetworkServiceGoroutine()` starts it. -/
def Goroutine.start : Goroutine := { phase := .finding, actions := [] }

/-- The getter `GetNetworkService()` of a possibly nil connection. -/
def GetNetworkService : Option Connection → String
  | some c => c.networkService
  | none => ""

/-- The getter `GetNetworkServiceEndpointName()` of a possibly nil connection. -/
def GetNetworkServiceEndpointName : Option Connection → String
  | some c => c.networkServiceEndpointName
  | none => ""

/-- The getter `GetLabels()` of a possibly nil connection. -/
def GetLabels : Option Connection → List (String × String)
  | some c => c.labels
  | none => []

/-- The type of `matchutils.MatchEndpoint` (the function is not among the
sources and is a parameter of the goroutine): the endpoints that match the
network service under the labels. -/
abbrev Matcher :=
  List (String × String) → registry.NetworkService → List registry.NetworkServiceEndpoint →
    List registry.NetworkServiceEndpoint

/-- The body of the select case `netsvc, ok := <-networkServiceCh` with `ok`
true, lines 95 to 116 of `server.go`: the endpoint is looked up; a failed
lookup breaks out of the select, an empty list continues the loop, and when
no endpoint matches the connection is closed and the goroutine returns. -/
def onUpdate (MatchEndpoint : Matcher) (mon : Monitor) (g : Goroutine)
    (netsvc : registry.NetworkService)
    (lookup : Except String (List registry.NetworkServiceEndpoint)) : Goroutine :=
  let found := g.actions ++ [.findEndpoint (GetNetworkServiceEndpointName mon.conn)]
  match lookup with
  | .error _ => { phase := .watching, actions := found }
  | .ok nses =>
    if nses.length == 0 then { phase := .watching, actions := found }
    else if (MatchEndpoint (GetLabels mon.resp) netsvc nses).length == 0 then
      { phase := .returned, actions := found ++ [.beginClose mon.ctx] }
    else { phase := .watching, actions := found }

/-- One turn of `monitorNetworkServiceGoroutine`, lines 68 to 120 of
`server.go`, in the world `w` of that turn.  Both loops run while
`monitorCtx.Err() == nil`, and the select returns on `monitorCtx.Done()`.  At
the head of the outer loop the network service is searched with `Watch`; in
the inner loop a closed stream leads back to the outer loop (after the sleep)
and an update is handled by `onUpdate`.  An observation that does not belong
to the statement the goroutine is at is not consumed. -/
def turn (MatchEndpoint : Matcher) (mon : Monitor) (g : Goroutine) (w : World)
    (o : Observation) : Goroutine :=
  match g.phase with
  | .returned => g
  | .finding =>
    if mon.monitorCtx.err w then { g with phase := .returned }
    else
      match o with
      | .findFailed _ =>
        { phase := .finding,
          actions := g.actions ++ [.findNetworkService (GetNetworkService mon.conn), .sleep] }
      | .findStream =>
        { phase := .watching,
          actions := g.actions ++ [.findNetworkService (GetNetworkService mon.conn)] }
      | _ => g
  | .watching =>
    if mon.monitorCtx.err w then { g with phase := .returned }
    else
      match o with
      | .streamClosed => { phase := .finding, actions := g.actions ++ [.sleep] }
      | .update netsvc lookup => onUpdate MatchEndpoint mon g netsvc lookup
      | _ => g

/-- The goroutine after a sequence of turns, each in its world. -/
def turns (MatchEndpoint : Matcher) (mon : Monitor) (g : Goroutine)
    (os : List (World × Observation)) : Goroutine :=
  os.foldl (fun g wo => turn MatchEndpoint mon g wo.1 wo.2) g

/-- How many times the goroutine triggered `begin.FromContext(ctx).Close()`. -/
def closes (g : Goroutine) : Nat :=
  (g.actions.filter (fun a => match a with
    | .beginClose _ => true
    | _ => false)).length

/-- The goroutine closed the connection at most once, and only on returning. -/
def ClosedOnce (g : Goroutine) : Prop :=
  closes g = 0 ∨ (g.phase = Phase.returned ∧ closes g = 1)

/-- A matcher for the examples: the endpoints that serve the network service. -/
def servesMatcher : Matcher :=
  fun _ netsvc nses => nses.filter (fun nse => nse.networkServiceNames.contains netsvc.name)

end netsvcmonitor

/-! ## The `authorize` registry client: definitions -/

namespace authorize

open registry

/-- The path of a registry call, `grpcmetadata.Path`: the index and the
segments (each with its token). -/
structure Path where
  index : Nat := 0
  pathSegments : List String := []
  deriving DecidableEq, Repr

/-- The peer of a gRPC call, `peer.Peer`. -/
structure Peer where
  addr : String := ""
  deriving DecidableEq, Repr

/-- What the methods read from their `ctx`: the path kept by `grpcmetadata`
and the peer put there by `peer.NewContext`, if any. -/
structure Context where
  path : Path := {}
  peer : Option Peer := none
  deriving DecidableEq, Repr

/-- The map from resource name to path IDs, `PathIdsMap` (its declaration is
not among the sources): a map from string to list of strings. -/
abbrev PathIdsMap := List (String × List String)

/-- The method `Store` of the map: inserts or overwrites the entry of `name`. -/
def PathIdsMap.Store (m : PathIdsMap) (name : String) (ids : List String) : PathIdsMap :=
  (name, ids) :: m.filter (fun kv => kv.1 != name)

/-- The method `Delete` of the map: removes the entry of `name`. -/
def PathIdsMap.Delete (m : PathIdsMap) (name : String) : PathIdsMap :=
  m.filter (fun kv => kv.1 != name)

/-- The input of the policies, `RegistryOpaInput`. -/
structure RegistryOpaInput where
  resourceID : String
  resourceName : String
  resourcePathIdsMap : PathIdsMap
  pathSegments : List String
  index : Nat
  deriving DecidableEq, Repr

/-- A policy, identified by its name. -/
abbrev Policy := String

/-- The functions of the package that the two methods call and that are not
among the sources, taken as parameters: `getSpiffeIDFromPath` (the string of
the SPIFFE ID, or an error), `getRawMap`, and `policiesList.check` (nil, or
the error of the policy that rejects). -/
structure Helpers where
  getSpiffeIDFromPath : Path → Except String String
  getRawMap : PathIdsMap → PathIdsMap
  check : List Policy → Context → RegistryOpaInput → Option String

/-- What the downstream `Register` gives back: the response and the error it
returns, the path found in `ctx` after the call, and the peer that the call
option `grpc.Peer(&p)` captured (none when `p` stays the zero peer). -/
structure RegisterReply where
  resp : Option NetworkServiceEndpoint
  err : Option String
  path : Path
  peer : Option Peer
  deriving DecidableEq, Repr

/-- What the downstream `Unregister` gives back: the response and the error
it returns and the path found in `ctx` after the call. -/
structure UnregisterReply where
  resp : Option Unit
  err : Option String
  path : Path
  deriving DecidableEq, Repr

/-- The rest of the chain, `next.NetworkServiceEndpointRegistryClient(ctx)`. -/
structure NextClient where
  Register : Context → NetworkServiceEndpoint → RegisterReply
  Unregister : Context → NetworkServiceEndpoint → UnregisterReply

/-- The client: `authorizeNSEClient` with its policies, its map of path IDs
and the peer of the server it stored. -/
structure authorizeNSEClient where
  policies : List Policy
  nsePathIdsMap : PathIdsMap
  serverPeer : Option Peer
  deriving DecidableEq, Repr

/-- What a method does that others can observe, in order: the downstream
calls and the evaluation of the policies. -/
inductive Event where
  | Register (nse : NetworkServiceEndpoint)
  | Unregister (nse : NetworkServiceEndpoint)
  | check (input : RegistryOpaInput)
  deriving DecidableEq, Repr

/-- How a method ends: it returns a pair (response, error), or it dereferences
a nil response. -/
inductive Returned (α : Type) where
  | pair (resp : Option α) (err : Option String)
  | nilDereference
  deriving DecidableEq, Repr

/-- The outcome of a method: how it ended, the client after the call and the
events of the call in order. -/
structure Outcome (α : Type) where
  returned : Returned α
  client : authorizeNSEClient
  events : List Event

/-- The context the policies are checked in after `Register`: the path is
read again from `ctx`, and the peer is the captured one when there is one. -/
def registerContext (ctx : Context) (r : RegisterReply) : Context :=
  { path := r.path,
    peer := match r.peer with
      | some p => some p
      | none => ctx.peer }

/-- The context the policies are checked in after `Unregister`: the path is
read again from `ctx`, and the peer is the stored peer of the server when
there is one. -/
def unregisterContext (c : authorizeNSEClient) (ctx : Context) (r : UnregisterReply) :
    Context :=
  { path := r.path,
    peer := match c.serverPeer with
      | some p => some p
      | none => ctx.peer }

/-- The `RegistryOpaInput` both methods build. -/
def opaInput (h : Helpers) (c : authorizeNSEClient) (spiffeID : String) (name : String)
    (path : Path) : RegistryOpaInput :=
  { resourceID := spiffeID, resourceName := name,
    resourcePathIdsMap := h.getRawMap c.nsePathIdsMap,
    pathSegments := path.pathSegments, index := path.index }

/-- The error returned when the check rejects: `err`, wrapped by
`errors.Wrapf` when the downstream `Unregister` failed as well. -/
def rejection (err : String) (unregisterErr : Option String) : String :=
  match unregisterErr with
  | some u => "nse unregistered with error: " ++ u ++ ": " ++ err
  | none => err

/-- The statement `if p != (peer.Peer{}) { c.serverPeer.Store(&p) }`: a
captured peer is stored as the peer of the server. -/
def storePeer (c : authorizeNSEClient) (p : Option Peer) : authorizeNSEClient :=
  match p with
  | some q => { c with serverPeer := some q }
  | none => c

/-- The method `authorizeNSEClient.Register` of `nse_client.go`. -/
def authorizeNSEClient.Register (c : authorizeNSEClient) (h : Helpers) (next : NextClient)
    (ctx : Context) (nse : NetworkServiceEndpoint) : Outcome NetworkServiceEndpoint :=
  if c.policies.length == 0 then
    { returned := .pair (next.Register ctx nse).resp (next.Register ctx nse).err,
      client := c, events := [.Register nse] }
  else
    let r := next.Register ctx nse
    match r.err with
    | some err => { returned := .pair none (some err), client := c, events := [.Register nse] }
    | none =>
      let c1 := storePeer c r.peer
      match h.getSpiffeIDFromPath r.path with
      | .error err =>
        { returned := .pair none (some err), client := c1, events := [.Register nse] }
      | .ok spiffeID =>
        match r.resp with
        | none => { returned := .nilDereference, client := c1, events := [.Register nse] }
        | some resp =>
          let input := opaInput h c spiffeID resp.name r.path
          match h.check c.policies (registerContext ctx r) input with
          | some err =>
            let u := next.Unregister { path := r.path, peer := ctx.peer } resp
            { returned := .pair none (some (rejection err u.err)), client := c1,
              events := [.Register nse, .check input, .Unregister resp] }
          | none =>
            { returned := .pair (some resp) none,
              client := { c1 with nsePathIdsMap := c1.nsePathIdsMap.Store resp.name resp.pathIds },
              events := [.Register nse, .check input] }

/-- The method `authorizeNSEClient.Unregister` of `nse_client.go`. -/
def authorizeNSEClient.Unregister (c : authorizeNSEClient) (h : Helpers) (next : NextClient)
    (ctx : Context) (nse : NetworkServiceEndpoint) : Outcome Unit :=
  if c.policies.length == 0 then
    { returned := .pair (next.Unregister ctx nse).resp (next.Unregister ctx nse).err,
      client := c, events := [.Unregister nse] }
  else
    let r := next.Unregister ctx nse
    match r.err with
    | some err => { returned := .pair none (some err), client := c, events := [.Unregister nse] }
    | none =>
      match h.getSpiffeIDFromPath r.path with
      | .error err =>
        { returned := .pair none (some err), client := c, events := [.Unregister nse] }
      | .ok spiffeID =>
        let input := opaInput h c spiffeID nse.name r.path
        match h.check c.policies (unregisterContext c ctx r) input with
        | some err =>
          { returned := .pair none (some err), client := c,
            events := [.Unregister nse, .check input] }
        | none =>
          { returned := .pair r.resp none,
            client := { c with nsePathIdsMap := c.nsePathIdsMap.Delete nse.name },
            events := [.Unregister nse, .check input] }

/-- The downstream `Unregister` succeeded, the SPIFFE ID was read from the
path and the check passed. -/
def Authorized (c : authorizeNSEClient) (h : Helpers) (next : NextClient) (ctx : Context)
    (nse : NetworkServiceEndpoint) : Prop :=
  (next.Unregister ctx nse).err = none
    ∧ ∃ spiffeID : String,
        h.getSpiffeIDFromPath (next.Unregister ctx nse).path = .ok spiffeID
        ∧ h.check c.policies (unregisterContext c ctx (next.Unregister ctx nse))
            (opaInput h c spiffeID nse.name (next.Unregister ctx nse).path) = none

/-- Whether an event is a downstream `Unregister`. -/
def Event.isUnregister : Event → Bool
  | .Unregister _ => true
  | _ => false

/-- Helpers for the examples: the SPIFFE ID is the first segment of the path
(an error when there is none), the raw map is the map, and the only policy
accepts a resource whose name is not registered or whose path IDs contain the
SPIFFE ID. -/
def exampleHelpers : Helpers :=
  { getSpiffeIDFromPath := fun path =>
      match path.pathSegments with
      | [] => .error "no segment"
      | s :: _ => .ok s,
    getRawMap := fun m => m,
    check := fun _ _ input =>
      match input.resourcePathIdsMap.lookup input.resourceName with
      | none => if input.resourceName == "forbidden" then some "denied" else none
      | some ids => if ids.contains input.resourceID then none else some "denied" }

/-- A rest of the chain for the examples: `Register` returns the endpoint
with the path IDs `spiffe-a`, `Unregister` succeeds, the path has the segment
`spiffe-b`. -/
def exampleNext : NextClient :=
  { Register := fun _ nse =>
      { resp := some { nse with pathIds := ["spiffe-a"] }, err := none,
        path := { pathSegments := ["spiffe-b"] }, peer := none },
    Unregister := fun _ _ =>
      { resp := some (), err := none, path := { pathSegments := ["spiffe-b"] } } }

/-- A rest of the chain for the examples whose calls come along the path
with the segment `spiffe-a`, the owner of `nse-1`. -/
def exampleNextOwner : NextClient :=
  { Register := fun _ nse =>
      { resp := some { nse with pathIds := ["spiffe-a"] }, err := none,
        path := { pathSegments := ["spiffe-a"] }, peer := none },
    Unregister := fun _ _ =>
      { resp := some (), err := none, path := { pathSegments := ["spiffe-a"] } } }

/-- A client for the examples, with one policy and the endpoint `nse-1`
registered under `spiffe-a`. -/
def exampleClient : authorizeNSEClient :=
  { policies := ["policy"], nsePathIdsMap := [("nse-1", ["spiffe-a"])], serverPeer := none }

end authorize

/-! ## The heal element: theorems -/

namespace heal

open networkservice

/-! ### Registry lemmas -/

theorem get_setHealInFlight (r : Registry) (id j : String) (b : Bool) :
    get (setHealInFlight r id b) j
      = (get r j).map (fun e => if e.id = id then { e with healInFlight := b } else e) := by
  unfold get setHealInFlight
  rw [List.find?_map]
  congr 2
  funext e
  by_cases h : e.id = id <;> simp [Function.comp, h]

theorem get_id (r : Registry) (id : String) (e : TrackedEntry) (h : get r id = some e) :
    e.id = id := by
  have := List.find?_some h
  simpa using this

theorem get_setHealInFlight_self (r : Registry) (id : String) (b : Bool) :
    get (setHealInFlight r id b) id
      = (get r id).map (fun e => { e with healInFlight := b }) := by
  rw [get_setHealInFlight]
  cases h : get r id with
  | none => rfl
  | some e => simp [get_id r id e h]

theorem get_setHealInFlight_ne (r : Registry) (id j : String) (b : Bool) (hj : j ≠ id) :
    get (setHealInFlight r id b) j = get r j := by
  rw [get_setHealInFlight]
  cases h : get r j with
  | none => rfl
  | some e =>
    have : e.id ≠ id := by rw [get_id r j e h]; exact hj
    simp [this]

theorem get_remove_self (r : Registry) (id : String) : get (remove r id) id = none := by
  unfold get remove
  simp [List.find?_eq_none]

theorem get_remove_ne (r : Registry) (id j : String) (hj : j ≠ id) :
    get (remove r id) j = get r j := by
  unfold get remove
  rw [List.find?_filter]
  congr 1
  funext e
  by_cases h : e.id = j
  · subst h; simp [hj]
  · simp [h]

theorem get_put_self (r : Registry) (id : String) (q : NetworkServiceRequest) (k : Connection) :
    get (put r id q k) id
      = some { id := id, lastRequest := q, lastKnownConnection := k, healInFlight := false } := by
  simp [get, put]

theorem get_put_ne (r : Registry) (id j : String) (q : NetworkServiceRequest) (k : Connection)
    (hj : j ≠ id) : get (put r id q k) j = get r j := by
  have h := get_remove_ne r id j hj
  unfold get at h
  have hb : (id == j) = false := by simpa using Ne.symm hj
  simp only [get, put, List.find?_cons, hb, h]

/-! ### The heal scheduler -/

theorem scheduleHeal_none (c : Core) (id : String) (h : healable c.registry id = none) :
    scheduleHeal c id = c := by
  unfold healable at h
  unfold scheduleHeal tryBeginHeal
  cases hg : get c.registry id with
  | none => simp
  | some e =>
    rw [hg] at h
    cases hf : e.healInFlight with
    | true => simp [hf]
    | false => simp [hf] at h

theorem scheduleHeal_some (c : Core) (id : String) (q : NetworkServiceRequest)
    (h : healable c.registry id = some q) :
    scheduleHeal c id
      = { c with registry := setHealInFlight c.registry id true,
                 healCalls := c.healCalls ++ [(id, q)],
                 pending := c.pending ++ [(id, q)] } := by
  unfold healable at h
  unfold scheduleHeal tryBeginHeal
  cases hg : get c.registry id with
  | none => simp [hg] at h
  | some e =>
    rw [hg] at h
    cases hf : e.healInFlight with
    | true => simp [hf] at h
    | false =>
      simp only [hf, if_false, Bool.false_eq_true] at h ⊢
      rw [get_setHealInFlight_self, hg]
      simp only [Option.map_some']
      cases h
      rfl

theorem get_scheduleHeal_self (c : Core) (id : String) :
    get (scheduleHeal c id).registry id
      = (get c.registry id).map (fun e => { e with healInFlight := true }) := by
  cases h : healable c.registry id with
  | none =>
    rw [scheduleHeal_none c id h]
    unfold healable at h
    cases hg : get c.registry id with
    | none => rfl
    | some e =>
      rw [hg] at h
      cases hf : e.healInFlight with
      | true =>
        have : e = { e with healInFlight := true } := by
          cases e; simp_all
        simp only [Option.map_some']
        rw [← this]
      | false => simp [hf] at h
  | some q =>
    rw [scheduleHeal_some c id q h]
    exact get_setHealInFlight_self c.registry id true

theorem get_scheduleHeal_ne (c : Core) (id j : String) (hj : j ≠ id) :
    get (scheduleHeal c id).registry j = get c.registry j := by
  cases h : healable c.registry id with
  | none => rw [scheduleHeal_none c id h]
  | some q =>
    rw [scheduleHeal_some c id q h]
    exact get_setHealInFlight_ne c.registry id j true hj

theorem healable_scheduleHeal_self (c : Core) (id : String) :
    healable (scheduleHeal c id).registry id = none := by
  unfold healable
  rw [get_scheduleHeal_self]
  cases get c.registry id <;> simp

theorem healable_scheduleHeal_ne (c : Core) (id j : String) (hj : j ≠ id) :
    healable (scheduleHeal c id).registry j = healable c.registry j := by
  unfold healable
  rw [get_scheduleHeal_ne c id j hj]

theorem callsFor_append (a b : List HealCall) (id : String) :
    callsFor (a ++ b) id = callsFor a id ++ callsFor b id := by
  simp [callsFor]

theorem callsFor_scheduleHeal_self (c : Core) (id : String) :
    callsFor (scheduleHeal c id).healCalls id
      = callsFor c.healCalls id ++ replay c.registry id := by
  unfold replay
  cases h : healable c.registry id with
  | none => rw [scheduleHeal_none c id h]; simp
  | some q =>
    rw [scheduleHeal_some c id q h]
    simp [callsFor]

theorem callsFor_scheduleHeal_ne (c : Core) (id j : String) (hj : j ≠ id) :
    callsFor (scheduleHeal c id).healCalls j = callsFor c.healCalls j := by
  cases h : healable c.registry id with
  | none => rw [scheduleHeal_none c id h]
  | some q =>
    rw [scheduleHeal_some c id q h]
    have : (id == j) = false := by simpa using Ne.symm hj
    simp [callsFor, this]

theorem replay_scheduleHeal_self (c : Core) (id : String) :
    replay (scheduleHeal c id).registry id = [] := by
  unfold replay
  rw [healable_scheduleHeal_self]

theorem replay_scheduleHeal_ne (c : Core) (id j : String) (hj : j ≠ id) :
    replay (scheduleHeal c id).registry j = replay c.registry j := by
  unfold replay
  rw [healable_scheduleHeal_ne c id j hj]

theorem scheduleAll_cons (c : Core) (i : String) (ids : List String) :
    scheduleAll c (i :: ids) = scheduleAll (scheduleHeal c i) ids := rfl

theorem replay_scheduleAll_of_not_mem (ids : List String) (c : Core) (id : String)
    (h : id ∉ ids) : replay (scheduleAll c ids).registry id = replay c.registry id := by
  induction ids generalizing c with
  | nil => rfl
  | cons i t ih =>
    rw [scheduleAll_cons, ih _ (fun hm => h (List.mem_cons_of_mem _ hm))]
    exact replay_scheduleHeal_ne c i id (fun he => h (he ▸ List.mem_cons_self _ _))

theorem callsFor_scheduleAll_of_not_mem (ids : List String) (c : Core) (id : String)
    (h : id ∉ ids) : callsFor (scheduleAll c ids).healCalls id = callsFor c.healCalls id := by
  induction ids generalizing c with
  | nil => rfl
  | cons i t ih =>
    rw [scheduleAll_cons, ih _ (fun hm => h (List.mem_cons_of_mem _ hm))]
    exact callsFor_scheduleHeal_ne c i id (fun he => h (he ▸ List.mem_cons_self _ _))

theorem callsFor_scheduleAll_of_replay_nil (ids : List String) (c : Core) (id : String)
    (h : replay c.registry id = []) :
    callsFor (scheduleAll c ids).healCalls id = callsFor c.healCalls id := by
  induction ids generalizing c with
  | nil => rfl
  | cons i t ih =>
    rw [scheduleAll_cons]
    by_cases he : id = i
    · subst he
      rw [ih _ (replay_scheduleHeal_self c id), callsFor_scheduleHeal_self, h]
      simp
    · rw [ih _ (by rw [replay_scheduleHeal_ne c i id he]; exact h),
        callsFor_scheduleHeal_ne c i id he]

/-- A batch of heals issues, for each ID, the replay of its stored request
once when the ID is in the batch and healable, and nothing otherwise. -/
theorem callsFor_scheduleAll (ids : List String) (c : Core) (id : String) :
    callsFor (scheduleAll c ids).healCalls id
      = callsFor c.healCalls id ++ (if id ∈ ids then replay c.registry id else []) := by
  induction ids generalizing c with
  | nil => simp [scheduleAll]
  | cons i t ih =>
    rw [scheduleAll_cons]
    by_cases he : id = i
    · subst he
      rw [callsFor_scheduleAll_of_replay_nil t _ id (replay_scheduleHeal_self c id),
        callsFor_scheduleHeal_self]
      simp
    · rw [ih, callsFor_scheduleHeal_ne c i id he, replay_scheduleHeal_ne c i id he]
      simp [he]

theorem get_scheduleAll (ids : List String) (c : Core) (id : String) :
    get (scheduleAll c ids).registry id
      = if id ∈ ids then (get c.registry id).map (fun e => { e with healInFlight := true })
        else get c.registry id := by
  induction ids generalizing c with
  | nil => simp [scheduleAll]
  | cons i t ih =>
    rw [scheduleAll_cons, ih]
    by_cases he : id = i
    · subst he
      rw [get_scheduleHeal_self]
      by_cases ht : id ∈ t
      · simp only [ht, if_true, List.mem_cons, true_or]
        cases get c.registry id <;> simp
      · simp [ht]
    · rw [get_scheduleHeal_ne c i id he]
      simp [he]

theorem confirmed_scheduleHeal (c : Core) (id : String) :
    (scheduleHeal c id).confirmed = c.confirmed := by
  cases h : healable c.registry id with
  | none => rw [scheduleHeal_none c id h]
  | some q => rw [scheduleHeal_some c id q h]

theorem confirmed_scheduleAll (ids : List String) (c : Core) :
    (scheduleAll c ids).confirmed = c.confirmed := by
  induction ids generalizing c with
  | nil => rfl
  | cons i t ih => rw [scheduleAll_cons, ih, confirmed_scheduleHeal]

/-! ### The reconciliation loop -/

theorem mem_snapshotIDs (r : Registry) (id : String) :
    id ∈ snapshotIDs r ↔ (get r id).isSome = true := by
  unfold snapshotIDs get
  rw [List.mem_dedup, List.find?_isSome]
  simp

theorem count_snapshotIDs (r : Registry) (id : String) (h : (get r id).isSome = true) :
    (snapshotIDs r).count id = 1 :=
  List.count_eq_one_of_mem (List.nodup_dedup _) ((mem_snapshotIDs r id).2 h)

theorem mem_missingFrom (r : Registry) (m : List (String × Connection)) (id : String) :
    id ∈ missingFrom r m ↔ (get r id).isSome = true ∧ id ∉ keys m := by
  unfold missingFrom
  rw [List.mem_filter, mem_snapshotIDs]
  simp

theorem mem_stillTracked (r : Registry) (m : List (String × Connection)) (id : String) :
    id ∈ stillTracked r m ↔ id ∈ keys m ∧ (get r id).isSome = true := by
  unfold stillTracked
  rw [List.mem_filter]

theorem replay_of_get (r : Registry) (id : String) (e : TrackedEntry) (h : get r id = some e) :
    replay r id = if e.healInFlight then [] else [(id, e.lastRequest)] := by
  unfold replay healable
  rw [h]
  cases hf : e.healInFlight <;> simp [hf]

theorem replay_length_le (r : Registry) (id : String) : (replay r id).length ≤ 1 := by
  unfold replay
  cases healable r id <;> simp

theorem callsFor_scheduleAll_length (ids : List String) (c : Core) (id : String) :
    (callsFor (scheduleAll c ids).healCalls id).length ≤ (callsFor c.healCalls id).length + 1 := by
  rw [callsFor_scheduleAll]
  by_cases h : id ∈ ids
  · simp only [h, if_true, List.length_append]
    exact Nat.add_le_add_left (replay_length_le _ _) _
  · simp [h]

theorem handleEvent_confirms (c : Core) (e : ConnectionEvent) (id : String)
    (h : confirms e id = true) :
    replay (handleEvent c e).registry id = replay c.registry id
      ∧ callsFor (handleEvent c e).healCalls id = callsFor c.healCalls id := by
  unfold confirms at h
  unfold handleEvent
  cases ht : e.type with
  | UPDATE => exact ⟨rfl, rfl⟩
  | DELETE => simp [ht] at h
  | INITIAL_STATE_TRANSFER =>
    simp only [ht] at h
    have hk : id ∈ keys e.connections := by simpa using h
    have hn : id ∉ missingFrom c.registry e.connections :=
      fun hm => ((mem_missingFrom _ _ _).1 hm).2 hk
    exact ⟨replay_scheduleAll_of_not_mem _ _ id hn, callsFor_scheduleAll_of_not_mem _ _ id hn⟩

theorem handleEvents_confirms (events : List ConnectionEvent) (c : Core) (id : String)
    (h : ∀ ev ∈ events, confirms ev id = true) :
    replay (handleEvents c events).registry id = replay c.registry id
      ∧ callsFor (handleEvents c events).healCalls id = callsFor c.healCalls id := by
  induction events generalizing c with
  | nil => exact ⟨rfl, rfl⟩
  | cons ev t ih =>
    have h1 := handleEvent_confirms c ev id (h ev (List.mem_cons_self _ _))
    have h2 := ih (handleEvent c ev) (fun x hx => h x (List.mem_cons_of_mem _ hx))
    exact ⟨h2.1.trans h1.1, h2.2.trans h1.2⟩

theorem callsFor_delete (c : Core) (e : ConnectionEvent) (id : String)
    (hd : e.type = ConnectionEventType.DELETE) :
    callsFor (handleEvent c e).healCalls id
      = callsFor c.healCalls id
          ++ (if id ∈ stillTracked c.registry e.connections then replay c.registry id else []) := by
  unfold handleEvent
  simp only [hd]
  exact callsFor_scheduleAll _ c id

theorem replay_Request_ok (c : Core) (q : NetworkServiceRequest) (k : Connection) :
    replay (Request c q (.ok k)).2.registry q.connection.id = [(q.connection.id, q)] := by
  unfold Request
  simp only
  rw [replay_of_get _ _ _ (get_put_self _ _ _ _)]
  simp

theorem tryBeginHeal_none (r : Registry) (id : String) (hg : get r id = none) :
    tryBeginHeal r id = (false, r) := by
  unfold tryBeginHeal
  rw [hg]

theorem tryBeginHeal_inFlight (r : Registry) (id : String) (e : TrackedEntry)
    (hg : get r id = some e) (hf : e.healInFlight = true) :
    tryBeginHeal r id = (false, r) := by
  unfold tryBeginHeal
  rw [hg]
  simp [hf]

theorem tryBeginHeal_wins (r : Registry) (id : String) (e : TrackedEntry)
    (hg : get r id = some e) (hf : e.healInFlight = false) :
    tryBeginHeal r id = (true, setHealInFlight r id true) := by
  unfold tryBeginHeal
  rw [hg]
  simp [hf]

/-! ### At most one heal in flight -/

theorem callsFor_dropPending_self (p : List HealCall) (id : String) :
    callsFor (dropPending p id) id = [] := by
  unfold callsFor dropPending
  rw [List.filter_filter, List.filter_eq_nil_iff]
  intro a _
  by_cases h : a.1 = id <;> simp [h]

theorem callsFor_dropPending_ne (p : List HealCall) (id j : String) (hj : j ≠ id) :
    callsFor (dropPending p id) j = callsFor p j := by
  unfold callsFor dropPending
  rw [List.filter_filter]
  congr 1
  funext a
  by_cases h : a.1 = j
  · subst h; simp [hj]
  · simp [h]

theorem healable_congr (r r' : Registry) (id : String) (h : get r' id = get r id) :
    healable r' id = healable r id := by
  unfold healable
  rw [h]

theorem oneInFlight_init : OneInFlight Core.init := by
  intro id
  exact ⟨Nat.zero_le _, fun h => absurd rfl h⟩

theorem oneInFlight_scheduleHeal (c : Core) (i : String) (h : OneInFlight c) :
    OneInFlight (scheduleHeal c i) := by
  cases hh : healable c.registry i with
  | none => rw [scheduleHeal_none c i hh]; exact h
  | some q =>
    intro id
    by_cases he : id = i
    · subst he
      have h0 : callsFor c.pending id = [] := by
        by_contra hne
        rw [(h id).2 hne] at hh
        cases hh
      refine ⟨?_, fun _ => healable_scheduleHeal_self c id⟩
      rw [scheduleHeal_some c id q hh]
      show (callsFor (c.pending ++ [(id, q)]) id).length ≤ 1
      rw [callsFor_append, h0]
      simp [callsFor]
    · rw [healable_scheduleHeal_ne c i id he]
      have hp : callsFor (scheduleHeal c i).pending id = callsFor c.pending id := by
        rw [scheduleHeal_some c i q hh]
        show callsFor (c.pending ++ [(i, q)]) id = _
        have hb : (i == id) = false := by simpa using Ne.symm he
        rw [callsFor_append]
        simp [callsFor, hb]
      rw [hp]
      exact h id

theorem oneInFlight_scheduleAll (ids : List String) (c : Core) (h : OneInFlight c) :
    OneInFlight (scheduleAll c ids) := by
  induction ids generalizing c with
  | nil => exact h
  | cons i t ih => exact ih _ (oneInFlight_scheduleHeal c i h)

theorem oneInFlight_confirmed (c : Core) (m : List (String × Connection))
    (h : OneInFlight c) : OneInFlight { c with confirmed := m } := h

theorem oneInFlight_handleEvent (c : Core) (e : ConnectionEvent) (h : OneInFlight c) :
    OneInFlight (handleEvent c e) := by
  unfold handleEvent
  cases e.type with
  | INITIAL_STATE_TRANSFER =>
    exact oneInFlight_scheduleAll _ _ (oneInFlight_confirmed c _ h)
  | UPDATE => exact oneInFlight_confirmed c _ h
  | DELETE => exact oneInFlight_confirmed _ _ (oneInFlight_scheduleAll _ _ h)

theorem oneInFlight_drop (c : Core) (i : String) (r : Registry) (h : OneInFlight c)
    (hr : ∀ j, j ≠ i → get r j = get c.registry j) :
    OneInFlight { c with registry := r, pending := dropPending c.pending i } := by
  intro id
  by_cases he : id = i
  · subst he
    show (callsFor (dropPending c.pending id) id).length ≤ 1 ∧ _
    rw [callsFor_dropPending_self]
    exact ⟨Nat.zero_le _, fun hne => absurd rfl hne⟩
  · show (callsFor (dropPending c.pending i) id).length ≤ 1
      ∧ (callsFor (dropPending c.pending i) id ≠ [] → healable r id = none)
    rw [callsFor_dropPending_ne _ _ _ he, healable_congr _ _ _ (hr id he)]
    exact h id

theorem oneInFlight_Request (c : Core) (q : NetworkServiceRequest)
    (o : Except String Connection) (h : OneInFlight c) : OneInFlight (Request c q o).2 := by
  unfold Request
  cases o with
  | error x => exact oneInFlight_drop c _ c.registry h (fun _ _ => rfl)
  | ok k => exact oneInFlight_drop c _ _ h (fun j hj => get_put_ne _ _ _ _ _ hj)

theorem oneInFlight_Close (c : Core) (k : Connection) (o : Option String)
    (h : OneInFlight c) : OneInFlight (Close c k o).2 := by
  intro id
  refine ⟨(h id).1, fun hne => ?_⟩
  show healable (remove c.registry k.id) id = none
  by_cases he : id = k.id
  · subst he
    unfold healable
    rw [get_remove_self]
  · rw [healable_congr _ _ _ (get_remove_ne _ _ _ he)]
    exact (h id).2 hne

theorem oneInFlight_healSucceeded (c : Core) (i : String) (k : Connection)
    (h : OneInFlight c) : OneInFlight (healSucceeded c i k) := by
  unfold healSucceeded
  cases c.pending.find? (fun x => x.1 == i) with
  | none => exact h
  | some x =>
    cases get c.registry i with
    | none => exact oneInFlight_drop c i c.registry h (fun _ _ => rfl)
    | some y => exact oneInFlight_drop c i _ h (fun j hj => get_put_ne _ _ _ _ _ hj)

theorem oneInFlight_healFailed (c : Core) (i : String) (h : OneInFlight c) :
    OneInFlight (healFailed c i) := by
  unfold healFailed
  cases c.pending.find? (fun x => x.1 == i) with
  | none => exact h
  | some x =>
    exact oneInFlight_drop c i _ h (fun j hj => get_setHealInFlight_ne _ _ _ _ hj)

theorem oneInFlight_step (c : Core) (s : Step) (h : OneInFlight c) :
    OneInFlight (step c s) := by
  cases s with
  | request q o => exact oneInFlight_Request c q o h
  | close k o => exact oneInFlight_Close c k o h
  | event e => exact oneInFlight_handleEvent c e h
  | terminated => exact oneInFlight_scheduleAll _ _ h
  | healSucceeded i k => exact oneInFlight_healSucceeded c i k h
  | healFailed i => exact oneInFlight_healFailed c i h

theorem oneInFlight_run (steps : List Step) (c : Core) (h : OneInFlight c) :
    OneInFlight (run c steps) := by
  induction steps generalizing c with
  | nil => exact h
  | cons s t ih => exact ih _ (oneInFlight_step c s h)

theorem scheduleAll_of_none (ids : List String) (c : Core)
    (h : ∀ id ∈ ids, healable c.registry id = none) : scheduleAll c ids = c := by
  induction ids with
  | nil => rfl
  | cons i t ih =>
    rw [scheduleAll_cons, scheduleHeal_none c i (h i (List.mem_cons_self _ _))]
    exact ih (fun id hid => h id (List.mem_cons_of_mem _ hid))

theorem healable_scheduleAll_of_mem (ids : List String) (c : Core) (id : String)
    (h : id ∈ ids) : healable (scheduleAll c ids).registry id = none := by
  unfold healable
  rw [get_scheduleAll, if_pos h]
  cases get c.registry id <;> simp

/-! ### Claims about the heal element -/

/-- C1: after a successful Request of a connection, possibly followed by
events that confirm the connection (UPDATE, or an INITIAL_STATE_TRANSFER
naming it), a DELETE event whose Connections name the connection's ID makes
the scheduler issue exactly one heal `forwardRequest` for that ID, and its
payload is the request that was accepted. -/
theorem C1_delete_after_request_heals_once (c : Core) (request : NetworkServiceRequest)
    (conn : Connection) (between : List ConnectionEvent) (e : ConnectionEvent)
    (hb : ∀ ev ∈ between, confirms ev request.connection.id = true)
    (hd : e.type = ConnectionEventType.DELETE)
    (hid : request.connection.id ∈ keys e.connections) :
    (Request c request (.ok conn)).1 = .ok conn
      ∧ callsFor (handleEvent (handleEvents (Request c request (.ok conn)).2 between) e).healCalls
            request.connection.id
          = callsFor c.healCalls request.connection.id ++ [(request.connection.id, request)] := by
  refine ⟨rfl, ?_⟩
  have hq := handleEvents_confirms between (Request c request (.ok conn)).2 _ hb
  have hr := replay_Request_ok c request conn
  rw [callsFor_delete _ e _ hd, hq.2, hq.1, hr]
  have hs : request.connection.id
      ∈ stillTracked (handleEvents (Request c request (.ok conn)).2 between).registry
          e.connections := by
    rw [mem_stillTracked]
    refine ⟨hid, ?_⟩
    have h1 := hq.1
    rw [hr] at h1
    unfold replay healable at h1
    cases hg : get (handleEvents (Request c request (.ok conn)).2 between).registry
        request.connection.id with
    | none => rw [hg] at h1; simp at h1
    | some x => rfl
  rw [if_pos hs]
  rfl

/-- C1, on the scenario of `TestHealClient_Request`: `conn-1` is requested,
the initial state transfer names it, it is deleted: one heal, replaying the
request. -/
theorem C1_delete_after_request_heals_once_witness :
    callsFor
        (handleEvent
          (handleEvents (Request Core.init request1 (.ok conn1)).2
            [{ type := .INITIAL_STATE_TRANSFER, connections := [("conn-1", conn1)] }])
          { type := .DELETE, connections := [("conn-1", conn1)] }).healCalls
        "conn-1"
      = [("conn-1", request1)] :=
  (C1_delete_after_request_heals_once Core.init request1 conn1
    [{ type := .INITIAL_STATE_TRANSFER, connections := [("conn-1", conn1)] }]
    { type := .DELETE, connections := [("conn-1", conn1)] }
    (by decide) rfl (by decide)).2

/-- C2: handling an INITIAL_STATE_TRANSFER schedules exactly one heal for
every ID that is tracked in the registry and absent from the snapshot (the ID
occurs once among the IDs handed to `scheduleHeal`; one replay of its stored
request is issued, unless a heal of it is already in flight, and afterwards a
heal of it is in flight); no ID gets more than one heal call from the event;
and in the scenario of `TestNewClient_MissingConnectionsInInit` (conn-1 and
conn-2 requested, snapshot with conn-1 only, monitoring context canceled) the
heal calls are exactly one for conn-2 and one for conn-1. -/
theorem C2_initial_state_transfer_heals_missing :
    (∀ (c : Core) (e : ConnectionEvent) (id : String) (entry : TrackedEntry),
        e.type = ConnectionEventType.INITIAL_STATE_TRANSFER →
        get c.registry id = some entry →
        id ∉ keys e.connections →
          (missingFrom c.registry e.connections).count id = 1
          ∧ callsFor (handleEvent c e).healCalls id
              = callsFor c.healCalls id
                  ++ (if entry.healInFlight then [] else [(id, entry.lastRequest)])
          ∧ get (handleEvent c e).registry id = some { entry with healInFlight := true })
    ∧ (∀ (c : Core) (e : ConnectionEvent) (id : String),
        e.type = ConnectionEventType.INITIAL_STATE_TRANSFER →
          (callsFor (handleEvent c e).healCalls id).length
            ≤ (callsFor c.healCalls id).length + 1)
    ∧ (run Core.init
          [.request request1 (.ok conn1), .request request2 (.ok conn2),
           .event { type := .INITIAL_STATE_TRANSFER, connections := [("conn-1", conn1)] },
           .terminated]).healCalls
        = [("conn-2", request2), ("conn-1", request1)] := by
  refine ⟨?_, ?_, by decide⟩
  · intro c e id entry ht hg hk
    have hm : id ∈ missingFrom c.registry e.connections :=
      (mem_missingFrom _ _ _).2 ⟨by rw [hg]; rfl, hk⟩
    have hc : (missingFrom c.registry e.connections).count id = 1 :=
      List.count_eq_one_of_mem ((List.nodup_dedup _).filter _) hm
    refine ⟨hc, ?_, ?_⟩
    · unfold handleEvent
      simp only [ht]
      rw [callsFor_scheduleAll, if_pos hm]
      exact congrArg _ (replay_of_get _ _ _ hg)
    · unfold handleEvent
      simp only [ht]
      rw [get_scheduleAll, if_pos hm]
      exact congrArg _ hg
  · intro c e id ht
    unfold handleEvent
    simp only [ht]
    exact callsFor_scheduleAll_length _ _ id

/-- C2, at the state of the test: after both requests, the snapshot with
conn-1 only makes the loop heal conn-2, once. -/
theorem C2_initial_state_transfer_heals_missing_witness :
    callsFor
        (handleEvent
          (run Core.init [.request request1 (.ok conn1), .request request2 (.ok conn2)])
          { type := .INITIAL_STATE_TRANSFER, connections := [("conn-1", conn1)] }).healCalls
        "conn-2"
      = [("conn-2", request2)] :=
  (C2_initial_state_transfer_heals_missing.1
    (run Core.init [.request request1 (.ok conn1), .request request2 (.ok conn2)])
    { type := .INITIAL_STATE_TRANSFER, connections := [("conn-1", conn1)] }
    "conn-2"
    { id := "conn-2", lastRequest := request2, lastKnownConnection := conn2,
      healInFlight := false }
    rfl (by decide) (by decide)).2.1

/-- C3: when the subscription terminates, a heal is scheduled for every
tracked ID exactly once (the ID occurs once among the IDs handed to
`scheduleHeal`; one replay of its stored request is issued, unless a heal of
it is already in flight, and afterwards a heal of it is in flight); no ID gets
more than one heal call from one termination; and canceling after one
successful Request issues exactly one heal for that connection, replaying its
request (on a fresh core it is the only heal call). -/
theorem C3_termination_heals_every_tracked_id :
    (∀ (c : Core) (id : String) (entry : TrackedEntry),
        get c.registry id = some entry →
          (snapshotIDs c.registry).count id = 1
          ∧ callsFor (subscriptionTerminated c).healCalls id
              = callsFor c.healCalls id
                  ++ (if entry.healInFlight then [] else [(id, entry.lastRequest)])
          ∧ get (subscriptionTerminated c).registry id
              = some { entry with healInFlight := true })
    ∧ (∀ (c : Core) (id : String),
          (callsFor (subscriptionTerminated c).healCalls id).length
            ≤ (callsFor c.healCalls id).length + 1)
    ∧ (∀ (c : Core) (request : NetworkServiceRequest) (conn : Connection),
          callsFor (subscriptionTerminated (Request c request (.ok conn)).2).healCalls
              request.connection.id
            = callsFor c.healCalls request.connection.id
                ++ [(request.connection.id, request)])
    ∧ (∀ (request : NetworkServiceRequest) (conn : Connection),
          (subscriptionTerminated (Request Core.init request (.ok conn)).2).healCalls
            = [(request.connection.id, request)]) := by
  refine ⟨?_, ?_, ?_, ?_⟩
  · intro c id entry hg
    have hs : (get c.registry id).isSome = true := by rw [hg]; rfl
    have hm : id ∈ snapshotIDs c.registry := (mem_snapshotIDs _ _).2 hs
    refine ⟨count_snapshotIDs _ _ hs, ?_, ?_⟩
    · unfold subscriptionTerminated
      rw [callsFor_scheduleAll, if_pos hm]
      exact congrArg _ (replay_of_get _ _ _ hg)
    · unfold subscriptionTerminated
      rw [get_scheduleAll, if_pos hm]
      exact congrArg _ hg
  · intro c id
    exact callsFor_scheduleAll_length _ _ id
  · intro c request conn
    have hg : get (Request c request (.ok conn)).2.registry request.connection.id
        = some { id := request.connection.id, lastRequest := request,
                 lastKnownConnection := conn, healInFlight := false } :=
      get_put_self _ _ _ _
    have hm : request.connection.id ∈ snapshotIDs (Request c request (.ok conn)).2.registry :=
      (mem_snapshotIDs _ _).2 (by rw [hg]; rfl)
    unfold subscriptionTerminated
    rw [callsFor_scheduleAll, if_pos hm, replay_of_get _ _ _ hg]
    rfl
  · intro request conn
    have hh : healable (put [] request.connection.id request conn) request.connection.id
        = some request := by
      unfold healable
      rw [get_put_self]
      rfl
    have hr : (Request Core.init request (.ok conn)).2
        = { registry := put [] request.connection.id request conn, confirmed := [],
            healCalls := [], pending := [] } := rfl
    rw [hr]
    unfold subscriptionTerminated
    have hi : snapshotIDs (put [] request.connection.id request conn)
        = [request.connection.id] := by
      simp [snapshotIDs, put, remove]
    rw [hi]
    show (scheduleHeal _ _).healCalls = _
    rw [scheduleHeal_some _ _ request hh]
    rfl

/-- C3, on the scenario of `TestHealClient_MonitorClose`: conn-1 is requested
and confirmed by the initial state transfer, then the context is canceled. -/
theorem C3_termination_heals_every_tracked_id_witness :
    callsFor
        (subscriptionTerminated
          (run Core.init
            [.request request1 (.ok conn1),
             .event { type := .INITIAL_STATE_TRANSFER,
                      connections := [("conn-1", conn1)] }])).healCalls
        "conn-1"
      = [("conn-1", request1)] :=
  (C3_termination_heals_every_tracked_id.1
    (run Core.init
      [.request request1 (.ok conn1),
       .event { type := .INITIAL_STATE_TRANSFER, connections := [("conn-1", conn1)] }])
    "conn-1"
    { id := "conn-1", lastRequest := request1, lastKnownConnection := conn1,
      healInFlight := false }
    (by decide)).2.1

theorem merge_cons (c : List (String × Connection)) (kv : String × Connection)
    (t : List (String × Connection)) :
    merge c (kv :: t) = merge (kv :: c.filter (fun old => old.1 != kv.1)) t := rfl

theorem mem_keys_merge (u c : List (String × Connection)) (id : String) :
    id ∈ keys (merge c u) ↔ id ∈ keys c ∨ id ∈ keys u := by
  induction u generalizing c with
  | nil => simp [merge, keys]
  | cons kv t ih =>
    rw [merge_cons, ih]
    unfold keys
    simp only [List.map_cons, List.mem_cons, List.mem_map, List.mem_filter]
    constructor
    · rintro (h | h)
      · rcases h with h | ⟨x, ⟨hx, _⟩, rfl⟩
        · exact Or.inr (Or.inl h)
        · exact Or.inl ⟨x, hx, rfl⟩
      · exact Or.inr (Or.inr h)
    · rintro (⟨x, hx, rfl⟩ | h | h)
      · by_cases hk : x.1 = kv.1
        · exact Or.inl (Or.inl hk)
        · exact Or.inl (Or.inr ⟨x, ⟨hx, by simpa using hk⟩, rfl⟩)
      · exact Or.inl (Or.inl h)
      · exact Or.inr h

theorem lookup_filter_other (l : List (String × Connection)) (k j : String) (hj : j ≠ k) :
    (l.filter (fun kv => kv.1 != k)).lookup j = l.lookup j := by
  induction l with
  | nil => rfl
  | cons a t ih =>
    obtain ⟨a1, a2⟩ := a
    by_cases h1 : a1 = k
    · have hb : (j == a1) = false := by
        simpa using fun h2 : j = a1 => hj (h2.trans h1)
      rw [List.filter_cons_of_neg (by simp [h1]), ih, List.lookup_cons, hb]
    · rw [List.filter_cons_of_pos (by simp [h1]), List.lookup_cons, List.lookup_cons, ih]

theorem lookup_merge_of_not_mem (u c : List (String × Connection)) (id : String)
    (h : id ∉ keys u) : (merge c u).lookup id = c.lookup id := by
  induction u generalizing c with
  | nil => rfl
  | cons kv t ih =>
    have hne : id ≠ kv.1 := fun he => h (by simp [keys, he])
    have ht : id ∉ keys t := fun hm => h (by
      unfold keys at hm ⊢
      exact List.mem_cons_of_mem _ hm)
    have hb : (id == kv.1) = false := by simpa using hne
    rw [merge_cons, ih _ ht]
    obtain ⟨k1, k2⟩ := kv
    rw [List.lookup_cons, hb]
    exact lookup_filter_other c k1 id hne

theorem handleEvents_updates (events : List ConnectionEvent) (c : Core)
    (h : ∀ e ∈ events, e.type = ConnectionEventType.UPDATE) :
    (handleEvents c events).healCalls = c.healCalls
      ∧ (handleEvents c events).pending = c.pending
      ∧ (handleEvents c events).registry = c.registry := by
  induction events generalizing c with
  | nil => exact ⟨rfl, rfl, rfl⟩
  | cons e t ih =>
    have he := h e (List.mem_cons_self _ _)
    have h1 : handleEvent c e = { c with confirmed := merge c.confirmed e.connections } := by
      simp [handleEvent, he]
    have h2 := ih (handleEvent c e) (fun x hx => h x (List.mem_cons_of_mem _ hx))
    rw [h1] at h2
    have h3 : handleEvents c (e :: t) = handleEvents (handleEvent c e) t := rfl
    rw [h3, h1]
    exact h2

/-- C4: processing an UPDATE issues no heal call and starts no heal attempt,
whatever the registry and the previous snapshot are: the registry, the heal
calls and the pending heals are unchanged, also over any sequence of UPDATE
events; the confirmed snapshot becomes the merge of the previous one with the
event's Connections: its IDs are those of both, and what it holds for an ID
the event does not name is unchanged. -/
theorem C4_update_triggers_no_heal (c : Core) (e : ConnectionEvent)
    (hu : e.type = ConnectionEventType.UPDATE) :
    (handleEvent c e).healCalls = c.healCalls
      ∧ (handleEvent c e).pending = c.pending
      ∧ (handleEvent c e).registry = c.registry
      ∧ (handleEvent c e).confirmed = merge c.confirmed e.connections
      ∧ (∀ id : String, id ∈ keys (handleEvent c e).confirmed
            ↔ id ∈ keys c.confirmed ∨ id ∈ keys e.connections)
      ∧ (∀ id : String, id ∉ keys e.connections →
            (handleEvent c e).confirmed.lookup id = c.confirmed.lookup id)
      ∧ (∀ events : List ConnectionEvent,
            (∀ ev ∈ events, ev.type = ConnectionEventType.UPDATE) →
              (handleEvents c events).healCalls = c.healCalls
                ∧ (handleEvents c events).registry = c.registry) := by
  have h1 : handleEvent c e = { c with confirmed := merge c.confirmed e.connections } := by
    simp [handleEvent, hu]
  rw [h1]
  refine ⟨rfl, rfl, rfl, rfl, ?_, ?_, ?_⟩
  · intro id
    exact mem_keys_merge _ _ id
  · intro id hid
    exact lookup_merge_of_not_mem _ _ id hid
  · intro events hev
    have h := handleEvents_updates events c hev
    exact ⟨h.1, h.2.2⟩

/-- C4, on the scenario of `TestHealClient_EmptyInit`: conn-1 is requested,
the initial state transfer is empty, then conn-1 is updated. -/
theorem C4_update_triggers_no_heal_witness :
    (handleEvent
        (run Core.init
          [.request request1 (.ok conn1),
           .event { type := .INITIAL_STATE_TRANSFER, connections := [] }])
        { type := .UPDATE, connections := [("conn-1", conn1)] }).healCalls
      = (run Core.init
          [.request request1 (.ok conn1),
           .event { type := .INITIAL_STATE_TRANSFER, connections := [] }]).healCalls :=
  (C4_update_triggers_no_heal
    (run Core.init
      [.request request1 (.ok conn1),
       .event { type := .INITIAL_STATE_TRANSFER, connections := [] }])
    { type := .UPDATE, connections := [("conn-1", conn1)] } rfl).1

/-- C9: at most one heal attempt is in flight per connection ID in every
reachable state.  `tryBeginHeal` returns true exactly when the entry's
`healInFlight` was false, and leaves it true; a second `tryBeginHeal` returns
false; a second `scheduleHeal`, or a second delivery of the same DELETE event,
issues no further `forwardRequest`; after `put`, or after the failure of the
pending heal of a tracked ID, `tryBeginHeal` wins again. -/
theorem C9_at_most_one_heal_in_flight :
    (∀ (steps : List Step) (id : String),
        (callsFor (run Core.init steps).pending id).length ≤ 1)
    ∧ (∀ (r : Registry) (id : String),
        (tryBeginHeal r id).1 = true
          ↔ (get r id).map (fun e => e.healInFlight) = some false)
    ∧ (∀ (r : Registry) (id : String) (entry : TrackedEntry),
        get r id = some entry →
          get (tryBeginHeal r id).2 id = some { entry with healInFlight := true })
    ∧ (∀ (r : Registry) (id : String), (tryBeginHeal (tryBeginHeal r id).2 id).1 = false)
    ∧ (∀ (c : Core) (id : String), scheduleHeal (scheduleHeal c id) id = scheduleHeal c id)
    ∧ (∀ (c : Core) (e : ConnectionEvent),
        e.type = ConnectionEventType.DELETE →
          (handleEvent (handleEvent c e) e).healCalls = (handleEvent c e).healCalls)
    ∧ (∀ (r : Registry) (id : String) (q : NetworkServiceRequest) (k : Connection),
        (tryBeginHeal (put r id q k) id).1 = true)
    ∧ (∀ (c : Core) (id : String),
        callsFor c.pending id ≠ [] → (get c.registry id).isSome = true →
          (tryBeginHeal (healFailed c id).registry id).1 = true) := by
  refine ⟨?_, ?_, ?_, ?_, ?_, ?_, ?_, ?_⟩
  · intro steps id
    exact (oneInFlight_run steps Core.init oneInFlight_init id).1
  · intro r id
    unfold tryBeginHeal
    cases hg : get r id with
    | none => simp
    | some e => cases hf : e.healInFlight <;> simp [hf]
  · intro r id entry hg
    cases hf : entry.healInFlight with
    | true =>
      rw [tryBeginHeal_inFlight r id entry hg hf, hg]
      cases entry
      simp_all
    | false =>
      rw [tryBeginHeal_wins r id entry hg hf]
      show get (setHealInFlight r id true) id = _
      rw [get_setHealInFlight_self, hg]
      rfl
  · intro r id
    cases hg : get r id with
    | none => rw [tryBeginHeal_none r id hg, tryBeginHeal_none r id hg]
    | some e =>
      cases hf : e.healInFlight with
      | true =>
        rw [tryBeginHeal_inFlight r id e hg hf, tryBeginHeal_inFlight r id e hg hf]
      | false =>
        rw [tryBeginHeal_wins r id e hg hf]
        have hg2 : get (setHealInFlight r id true) id
            = some { e with healInFlight := true } := by
          rw [get_setHealInFlight_self, hg]
          rfl
        rw [tryBeginHeal_inFlight _ id _ hg2 rfl]
  · intro c id
    exact scheduleHeal_none _ id (healable_scheduleHeal_self c id)
  · intro c e hd
    have h1 : ∀ c : Core, (handleEvent c e).healCalls
        = (scheduleAll c (stillTracked c.registry e.connections)).healCalls := by
      intro c
      simp [handleEvent, hd]
    have hc : (handleEvent (handleEvent c e) e).healCalls = (handleEvent c e).healCalls := by
      have hall : scheduleAll (handleEvent c e)
          (stillTracked (handleEvent c e).registry e.connections) = handleEvent c e := by
        apply scheduleAll_of_none
        intro id hid
        have hk := (mem_stillTracked _ _ _).1 hid
        have hreg : (handleEvent c e).registry
            = (scheduleAll c (stillTracked c.registry e.connections)).registry := by
          simp [handleEvent, hd]
        rw [hreg] at hk ⊢
        by_cases hm : id ∈ stillTracked c.registry e.connections
        · exact healable_scheduleAll_of_mem _ _ _ hm
        · have hs := hk.2
          rw [get_scheduleAll, if_neg hm] at hs
          exact absurd ((mem_stillTracked _ _ _).2 ⟨hk.1, hs⟩) hm
      rw [h1 (handleEvent c e), hall]
    exact hc
  · intro r id q k
    unfold tryBeginHeal
    rw [get_put_self]
    rfl
  · intro c id hp hs
    unfold healFailed
    have hf : (c.pending.find? (fun x => x.1 == id)).isSome = true := by
      rw [List.find?_isSome]
      cases hl : callsFor c.pending id with
      | nil => exact absurd hl hp
      | cons a t =>
        have ha : a ∈ callsFor c.pending id := by rw [hl]; exact List.mem_cons_self _ _
        unfold callsFor at ha
        rw [List.mem_filter] at ha
        exact ⟨a, ha.1, ha.2⟩
    cases hfind : c.pending.find? (fun x => x.1 == id) with
    | none => rw [hfind] at hf; cases hf
    | some x =>
      simp only
      unfold tryBeginHeal
      rw [get_setHealInFlight_self]
      cases hg : get c.registry id with
      | none => rw [hg] at hs; cases hs
      | some y => rfl

/-- C9, on a concrete run: conn-1 is requested, deleted, and the same DELETE
is delivered again while the heal is running: one heal call, one pending
attempt. -/
theorem C9_at_most_one_heal_in_flight_witness :
    (callsFor
        (run Core.init
          [.request request1 (.ok conn1),
           .event { type := .DELETE, connections := [("conn-1", conn1)] },
           .event { type := .DELETE, connections := [("conn-1", conn1)] }]).pending
        "conn-1").length ≤ 1
    ∧ (run Core.init
          [.request request1 (.ok conn1),
           .event { type := .DELETE, connections := [("conn-1", conn1)] },
           .event { type := .DELETE, connections := [("conn-1", conn1)] }]).healCalls
        = [("conn-1", request1)]
    ∧ (handleEvent
          (handleEvent (run Core.init [.request request1 (.ok conn1)])
            { type := .DELETE, connections := [("conn-1", conn1)] })
          { type := .DELETE, connections := [("conn-1", conn1)] }).healCalls
        = (handleEvent (run Core.init [.request request1 (.ok conn1)])
            { type := .DELETE, connections := [("conn-1", conn1)] }).healCalls :=
  ⟨C9_at_most_one_heal_in_flight.1 _ "conn-1", by decide,
    C9_at_most_one_heal_in_flight.2.2.2.2.2.1
      (run Core.init [.request request1 (.ok conn1)])
      { type := .DELETE, connections := [("conn-1", conn1)] } rfl⟩

end heal

/-! ## The `netsvcmonitor` element: theorems -/

namespace netsvcmonitor

open networkservice

/-! ### Lemmas on the store of cancel functions -/

theorem lookup_mem (l : List (Nat × Nat)) (k v : Nat) (h : l.lookup k = some v) :
    (k, v) ∈ l := by
  induction l with
  | nil => simp at h
  | cons a t ih =>
    obtain ⟨a1, a2⟩ := a
    by_cases hk : k = a1
    · subst hk
      simp [List.lookup] at h
      simp [h]
    · have hb : (k == a1) = false := by simpa using hk
      simp only [List.lookup, hb] at h
      exact List.mem_cons_of_mem _ (ih h)

theorem lookup_filter_ne (l : List (Nat × Nat)) (k j : Nat) (hj : j ≠ k) :
    (l.filter (fun kv => kv.1 != k)).lookup j = l.lookup j := by
  induction l with
  | nil => rfl
  | cons a t ih =>
    obtain ⟨a1, a2⟩ := a
    by_cases h1 : a1 = k
    · have hb : (j == a1) = false := by
        simpa using fun h2 : j = a1 => hj (h2.trans h1)
      rw [List.filter_cons_of_neg (by simp [h1]), ih, List.lookup_cons, hb]
    · rw [List.filter_cons_of_pos (by simp [h1]), List.lookup_cons, List.lookup_cons, ih]

theorem load_store_self (w : World) (ctx : CallContext) (c : Nat) :
    loadCancelFunction (storeCancelFunction w ctx c) ctx = some c := by
  simp [loadCancelFunction, storeCancelFunction, List.lookup]

theorem lookup_store_ne (w : World) (ctx : CallContext) (c j : Nat) (hj : j ≠ ctx.metadata) :
    (storeCancelFunction w ctx c).store.lookup j = w.store.lookup j := by
  have hb : (j == ctx.metadata) = false := by simpa using hj
  simp only [storeCancelFunction, List.lookup, hb]
  exact lookup_filter_ne _ _ _ hj

/-! ### The two methods, case by case -/

theorem cancelStored_some (w : World) (ctx : CallContext) (c : Nat)
    (h : loadCancelFunction w ctx = some c) :
    cancelStored w ctx = (invoke w c, [Effect.cancel c]) := by
  unfold cancelStored
  rw [h]

theorem cancelStored_none (w : World) (ctx : CallContext)
    (h : loadCancelFunction w ctx = none) : cancelStored w ctx = (w, []) := by
  unfold cancelStored
  rw [h]

theorem Request_error (m : monitorServer) (next : NextServer) (w : World) (ctx : CallContext)
    (request : NetworkServiceRequest) (h : (next.Request request).2 ≠ none) :
    m.Request next w ctx request
      = { value := next.Request request, world := afterCancel w ctx,
          trace := (cancelStored w ctx).2 ++ [Effect.forwardRequest request] } := by
  unfold monitorServer.Request afterCancel
  rcases hn : next.Request request with ⟨resp, err⟩
  rw [hn] at h
  cases err with
  | none => exact absurd rfl h
  | some e => rfl

theorem Request_ok (m : monitorServer) (next : NextServer) (w : World) (ctx : CallContext)
    (request : NetworkServiceRequest) (h : (next.Request request).2 = none) :
    m.Request next w ctx request
      = { value := next.Request request,
          world :=
            { canceled := (afterCancel w ctx).canceled,
              rootsDone := (afterCancel w ctx).rootsDone,
              store := (ctx.metadata, (afterCancel w ctx).nextId)
                :: (afterCancel w ctx).store.filter (fun kv => kv.1 != ctx.metadata),
              monitors := (afterCancel w ctx).monitors ++
                [{ monitorCtx := Context.withCancel m.chainCtx (afterCancel w ctx).nextId,
                   conn := (next.Request request).1, resp := (next.Request request).1,
                   ctx := ctx }],
              nextId := (afterCancel w ctx).nextId + 1 },
          trace := (cancelStored w ctx).2 ++
            [Effect.forwardRequest request,
             Effect.storeCancelFunction ctx.metadata (afterCancel w ctx).nextId,
             Effect.go (Context.withCancel m.chainCtx (afterCancel w ctx).nextId)] } := by
  unfold monitorServer.Request afterCancel
  rcases hn : next.Request request with ⟨resp, err⟩
  rw [hn] at h
  cases err with
  | some e => cases h
  | none => simp [withCancel, storeCancelFunction]

theorem afterCancel_fields (w : World) (ctx : CallContext) :
    (afterCancel w ctx).store = w.store ∧ (afterCancel w ctx).monitors = w.monitors
      ∧ (afterCancel w ctx).nextId = w.nextId ∧ (afterCancel w ctx).rootsDone = w.rootsDone
      ∧ (afterCancel w ctx).canceled
          = (match loadCancelFunction w ctx with
              | some c => c :: w.canceled
              | none => w.canceled) := by
  unfold afterCancel cancelStored
  cases loadCancelFunction w ctx <;> exact ⟨rfl, rfl, rfl, rfl, rfl⟩

theorem Close_eq (m : monitorServer) (next : NextServer) (w : World) (ctx : CallContext)
    (conn : Connection) :
    m.Close next w ctx conn
      = { value := next.Close conn, world := afterCancel w ctx,
          trace := (cancelStored w ctx).2 ++ [Effect.forwardClose conn] } := rfl

/-! ### Invariants of the reachable worlds -/

theorem wellFormed_afterCancel (w : World) (ctx : CallContext) (h : WellFormed w) :
    WellFormed (afterCancel w ctx) := by
  obtain ⟨hs, hm, hn, _, hc⟩ := afterCancel_fields w ctx
  refine ⟨?_, ?_⟩
  · rw [hc, hn]
    cases hl : loadCancelFunction w ctx with
    | none => exact h.1
    | some c =>
      intro x hx
      rcases List.mem_cons.1 hx with hx | hx
      · rw [hx]; exact h.2 _ (lookup_mem _ _ _ hl)
      · exact h.1 x hx
  · rw [hs, hn]; exact h.2

theorem wellFormed_call (m : monitorServer) (w : World) (c : Call) (h : WellFormed w) :
    WellFormed (call m w c) := by
  cases c with
  | close next ctx conn => exact wellFormed_afterCancel w ctx h
  | request next ctx request =>
    have ha := wellFormed_afterCancel w ctx h
    show WellFormed (m.Request next w ctx request).world
    by_cases he : (next.Request request).2 = none
    · rw [Request_ok m next w ctx request he]
      refine ⟨fun x hx => Nat.lt_succ_of_lt (ha.1 x hx), ?_⟩
      intro kv hkv
      rcases List.mem_cons.1 hkv with hkv | hkv
      · rw [hkv]; exact Nat.lt_succ_self _
      · exact Nat.lt_succ_of_lt (ha.2 kv (List.mem_filter.1 hkv).1)
    · rw [Request_error m next w ctx request he]
      exact ha

theorem wellFormed_calls (m : monitorServer) (cs : List Call) (w : World)
    (h : WellFormed w) : WellFormed (calls m w cs) := by
  induction cs generalizing w with
  | nil => exact h
  | cons c t ih => exact ih _ (wellFormed_call m w c h)

theorem wellFormed_empty : WellFormed World.empty :=
  ⟨fun _ h => absurd h (List.not_mem_nil _), fun _ h => absurd h (List.not_mem_nil _)⟩

theorem mem_canceled_afterCancel (w : World) (ctx : CallContext) (x : Nat)
    (h : x ∈ w.canceled) : x ∈ (afterCancel w ctx).canceled := by
  rw [(afterCancel_fields w ctx).2.2.2.2]
  cases loadCancelFunction w ctx with
  | none => exact h
  | some c => exact List.mem_cons_of_mem _ h

theorem stored_canceled_afterCancel (w : World) (ctx : CallContext) (c : Nat)
    (h : loadCancelFunction w ctx = some c) : c ∈ (afterCancel w ctx).canceled := by
  rw [(afterCancel_fields w ctx).2.2.2.2, h]
  exact List.mem_cons_self _ _

theorem owned_afterCancel (w : World) (ctx : CallContext) (h : Owned w) :
    Owned (afterCancel w ctx) := by
  intro mon hmon
  rw [(afterCancel_fields w ctx).2.1] at hmon
  obtain ⟨p, id, hctx, hlook⟩ := h mon hmon
  refine ⟨p, id, hctx, fun hnc => ?_⟩
  rw [(afterCancel_fields w ctx).1]
  exact hlook (fun hc => hnc (mem_canceled_afterCancel w ctx id hc))

theorem owned_call (m : monitorServer) (w : World) (c : Call) (h : Owned w) :
    Owned (call m w c) := by
  cases c with
  | close next ctx conn => exact owned_afterCancel w ctx h
  | request next ctx request =>
    show Owned (m.Request next w ctx request).world
    by_cases he : (next.Request request).2 = none
    · rw [Request_ok m next w ctx request he]
      intro mon hmon
      rcases List.mem_append.1 hmon with hold | hnew
      · rw [(afterCancel_fields w ctx).2.1] at hold
        obtain ⟨p, id, hctx, hlook⟩ := h mon hold
        refine ⟨p, id, hctx, fun hnc => ?_⟩
        have hw : id ∉ w.canceled := fun hc => hnc (mem_canceled_afterCancel w ctx id hc)
        have hl := hlook hw
        by_cases hk : mon.ctx.metadata = ctx.metadata
        · have hload : loadCancelFunction w ctx = some id := by
            unfold loadCancelFunction
            rw [← hk]
            exact hl
          exact absurd (stored_canceled_afterCancel w ctx id hload) hnc
        · have hb : (mon.ctx.metadata == ctx.metadata) = false := by simpa using hk
          show List.lookup mon.ctx.metadata (_ :: _) = some id
          rw [List.lookup_cons, hb]
          show List.lookup _ (List.filter _ (afterCancel w ctx).store) = _
          rw [(afterCancel_fields w ctx).1, lookup_filter_ne _ _ _ hk]
          exact hl
      · rw [List.mem_singleton.1 hnew]
        refine ⟨m.chainCtx, (afterCancel w ctx).nextId, rfl, fun _ => ?_⟩
        show List.lookup ctx.metadata (_ :: _) = _
        simp [List.lookup_cons]
    · rw [Request_error m next w ctx request he]
      exact owned_afterCancel w ctx h

theorem owned_calls (m : monitorServer) (cs : List Call) (w : World) (h : Owned w) :
    Owned (calls m w cs) := by
  induction cs generalizing w with
  | nil => exact h
  | cons c t ih => exact ih _ (owned_call m w c h)

theorem owned_empty : Owned World.empty :=
  fun _ h => absurd h (List.not_mem_nil _)

/-! ### Claims about `monitorServer` -/

/-- C5: `monitorServer.Request` returns exactly the pair (response, error)
that the rest of the chain returned, on error and on success alike, and it
forwards the request it was given, once. -/
theorem C5_request_returns_chain_result (m : monitorServer) (next : NextServer) (w : World)
    (ctx : CallContext) (request : NetworkServiceRequest) :
    (m.Request next w ctx request).value = next.Request request
      ∧ (m.Request next w ctx request).trace.filter
            (fun e => match e with
              | Effect.forwardRequest _ => true
              | _ => false)
          = [Effect.forwardRequest request] := by
  by_cases he : (next.Request request).2 = none
  · rw [Request_ok m next w ctx request he]
    refine ⟨rfl, ?_⟩
    unfold cancelStored
    cases loadCancelFunction w ctx <;> rfl
  · rw [Request_error m next w ctx request he]
    refine ⟨rfl, ?_⟩
    unfold cancelStored
    cases loadCancelFunction w ctx <;> rfl

/-- C6 fails as stated: with a monitor of the request running and its cancel
function stored, a `Request` whose forwarded request fails leaves a different
state: the monitor that was live before the call is canceled after it. -/
theorem C6_counterexample :
    (rejectAll.Request {}).2 = some "rejected"
      ∧ firstMonitor ∈ trackedWorld.monitors
      ∧ firstMonitor.live trackedWorld = true
      ∧ firstMonitor.live (server.Request rejectAll trackedWorld callCtx {}).world = false
      ∧ (server.Request rejectAll trackedWorld callCtx {}).world ≠ trackedWorld := by
  decide

/-- C6, amended: when the forwarded request returns an error, no cancel
function is created or stored and no monitor is started (store, monitors and
the supply of context identities are unchanged), the only change is that the
cancel function stored for the request, if any, has been invoked before the
request was forwarded; with none stored the state is the state before. -/
theorem C6_failed_request_stores_nothing (m : monitorServer) (next : NextServer) (w : World)
    (ctx : CallContext) (request : NetworkServiceRequest)
    (h : (next.Request request).2 ≠ none) :
    (m.Request next w ctx request).world.store = w.store
      ∧ (m.Request next w ctx request).world.monitors = w.monitors
      ∧ (m.Request next w ctx request).world.nextId = w.nextId
      ∧ (m.Request next w ctx request).world.rootsDone = w.rootsDone
      ∧ (m.Request next w ctx request).world.canceled
          = (match loadCancelFunction w ctx with
              | some c => c :: w.canceled
              | none => w.canceled)
      ∧ (m.Request next w ctx request).trace
          = (match loadCancelFunction w ctx with
              | some c => [Effect.cancel c]
              | none => []) ++ [Effect.forwardRequest request]
      ∧ (loadCancelFunction w ctx = none → (m.Request next w ctx request).world = w) := by
  rw [Request_error m next w ctx request h]
  obtain ⟨hs, hm, hn, hr, hc⟩ := afterCancel_fields w ctx
  refine ⟨hs, hm, hn, hr, hc, ?_, ?_⟩
  · show (cancelStored w ctx).2 ++ _ = _
    unfold cancelStored
    cases loadCancelFunction w ctx <;> rfl
  · intro hnone
    show afterCancel w ctx = w
    unfold afterCancel
    rw [cancelStored_none w ctx hnone]

/-- C6, amended, at the counterexample: the failed `Request` keeps the stored
cancel function and the list of monitors, and fires the stored cancel. -/
theorem C6_failed_request_stores_nothing_witness :
    (server.Request rejectAll trackedWorld callCtx {}).world.store = trackedWorld.store
      ∧ (server.Request rejectAll trackedWorld callCtx {}).world.monitors
          = trackedWorld.monitors
      ∧ (server.Request rejectAll trackedWorld callCtx {}).world.canceled = [0] :=
  ⟨(C6_failed_request_stores_nothing server rejectAll trackedWorld callCtx {}
      (by decide)).1,
    (C6_failed_request_stores_nothing server rejectAll trackedWorld callCtx {}
      (by decide)).2.1,
    (C6_failed_request_stores_nothing server rejectAll trackedWorld callCtx {}
      (by decide)).2.2.2.2.1⟩

/-- C7: in every reachable world, a `Request` issued while a cancel function
is stored for the request invokes that function and only then forwards the
request; and when the forwarded request succeeds, the cancel function of a
new context derived from the chain context `chainCtx` is stored in its place:
it differs from the old one, it has not been invoked, the new context is done
exactly when the chain context is (the context of the caller plays no part),
and the monitor that is started runs on that new context. -/
theorem C7_request_supersedes_stored_cancel (m : monitorServer) (cs : List Call)
    (next : NextServer) (ctx : CallContext) (request : NetworkServiceRequest) (cancel : Nat)
    (h : loadCancelFunction (calls m World.empty cs) ctx = some cancel) :
    (m.Request next (calls m World.empty cs) ctx request).trace.take 2
        = [Effect.cancel cancel, Effect.forwardRequest request]
      ∧ cancel ∈ (m.Request next (calls m World.empty cs) ctx request).world.canceled
      ∧ ((next.Request request).2 = none →
          loadCancelFunction (m.Request next (calls m World.empty cs) ctx request).world ctx
              = some (calls m World.empty cs).nextId
            ∧ (calls m World.empty cs).nextId ≠ cancel
            ∧ (calls m World.empty cs).nextId
                ∉ (m.Request next (calls m World.empty cs) ctx request).world.canceled
            ∧ (Context.withCancel m.chainCtx (calls m World.empty cs).nextId).err
                  (m.Request next (calls m World.empty cs) ctx request).world
                = m.chainCtx.err (m.Request next (calls m World.empty cs) ctx request).world
            ∧ (m.Request next (calls m World.empty cs) ctx request).world.monitors
                = (calls m World.empty cs).monitors ++
                    [{ monitorCtx := Context.withCancel m.chainCtx
                                       (calls m World.empty cs).nextId,
                       conn := (next.Request request).1,
                       resp := (next.Request request).1, ctx := ctx }]
            ∧ (m.Request next (calls m World.empty cs) ctx request).trace
                = [Effect.cancel cancel, Effect.forwardRequest request,
                   Effect.storeCancelFunction ctx.metadata (calls m World.empty cs).nextId,
                   Effect.go (Context.withCancel m.chainCtx
                                (calls m World.empty cs).nextId)]) := by
  generalize hw : calls m World.empty cs = w at h ⊢
  have hwf : WellFormed w := hw ▸ wellFormed_calls m cs World.empty wellFormed_empty
  obtain ⟨hs, hm, hn, hr, hc⟩ := afterCancel_fields w ctx
  rw [h] at hc
  have hcs := cancelStored_some w ctx cancel h
  have hlt : cancel < w.nextId := hwf.2 _ (lookup_mem _ _ _ h)
  by_cases he : (next.Request request).2 = none
  · have hfresh : w.nextId ∉ (afterCancel w ctx).canceled := by
      rw [hc]
      intro hmem
      rcases List.mem_cons.1 hmem with hx | hx
      · exact absurd hx (Nat.ne_of_gt hlt)
      · exact absurd (hwf.1 _ hx) (Nat.lt_irrefl _)
    rw [Request_ok m next w ctx request he, hcs, hn, hm]
    refine ⟨rfl, ?_, fun _ => ⟨?_, ?_, hfresh, ?_, rfl, rfl⟩⟩
    · show cancel ∈ (afterCancel w ctx).canceled
      rw [hc]; exact List.mem_cons_self _ _
    · show List.lookup ctx.metadata (_ :: _) = _
      simp [List.lookup_cons]
    · exact Nat.ne_of_gt hlt
    · have hf : (afterCancel w ctx).canceled.contains w.nextId = false := by
        simpa using hfresh
      simp only [Context.err, hf, Bool.false_or]
  · rw [Request_error m next w ctx request he, hcs]
    refine ⟨rfl, ?_, fun hnone => absurd hnone he⟩
    show cancel ∈ (afterCancel w ctx).canceled
    rw [hc]; exact List.mem_cons_self _ _

/-- C7, at a second `Request` on the same call context: the cancel function 0
of the first monitor is invoked, then the request is forwarded, then the
cancel function 1 of a context derived from the chain context is stored. -/
theorem C7_request_supersedes_stored_cancel_witness :
    (server.Request acceptAll
        (calls server World.empty [Call.request acceptAll callCtx {}]) callCtx {}).trace
      = [Effect.cancel 0, Effect.forwardRequest {},
         Effect.storeCancelFunction 7 1,
         Effect.go (Context.withCancel (Context.root "chain") 1)] :=
  ((C7_request_supersedes_stored_cancel server [Call.request acceptAll callCtx {}]
      acceptAll callCtx {} 0 (by decide)).2.2 rfl).2.2.2.2.2

/-- C8 fails as stated: after a successful `Request`, `Close` leaves the
entry of the request in the store of cancel functions, whether the forwarded
close succeeds or fails. -/
theorem C8_counterexample :
    loadCancelFunction trackedWorld callCtx = some 0
      ∧ loadCancelFunction (server.Close acceptAll trackedWorld callCtx {}).world callCtx
          = some 0
      ∧ loadCancelFunction (server.Close rejectAll trackedWorld callCtx {}).world callCtx
          = some 0 := by
  decide

theorem err_of_canceled (w : World) (p : Context) (id : Nat) (h : id ∈ w.canceled) :
    (Context.withCancel p id).err w = true := by
  simp [Context.err, h]

/-- C8, amended: `Close` invokes the cancel function stored for the request,
if any, and then forwards the close; it returns what the forwarded close
returned; whatever that is, in every reachable world every monitor started
for the closed request is canceled after the `Close`.  The store of cancel
functions is left as it was: the entry is not removed. -/
theorem C8_close_stops_monitoring (m : monitorServer) (cs : List Call) (next : NextServer)
    (ctx : CallContext) (conn : Connection) :
    (m.Close next (calls m World.empty cs) ctx conn).value = next.Close conn
      ∧ (m.Close next (calls m World.empty cs) ctx conn).world.store
          = (calls m World.empty cs).store
      ∧ (∀ cancel : Nat, loadCancelFunction (calls m World.empty cs) ctx = some cancel →
          (m.Close next (calls m World.empty cs) ctx conn).trace
              = [Effect.cancel cancel, Effect.forwardClose conn]
            ∧ cancel ∈ (m.Close next (calls m World.empty cs) ctx conn).world.canceled)
      ∧ (loadCancelFunction (calls m World.empty cs) ctx = none →
          (m.Close next (calls m World.empty cs) ctx conn).trace = [Effect.forwardClose conn]
            ∧ (m.Close next (calls m World.empty cs) ctx conn).world
                = calls m World.empty cs)
      ∧ (∀ mon ∈ (m.Close next (calls m World.empty cs) ctx conn).world.monitors,
          mon.ctx.metadata = ctx.metadata →
            mon.live (m.Close next (calls m World.empty cs) ctx conn).world = false) := by
  have hown : Owned (calls m World.empty cs) := owned_calls m cs World.empty owned_empty
  generalize calls m World.empty cs = w at hown ⊢
  rw [Close_eq]
  obtain ⟨hs, hm, hn, hr, hc⟩ := afterCancel_fields w ctx
  refine ⟨rfl, hs, ?_, ?_, ?_⟩
  · intro cancel hl
    refine ⟨?_, stored_canceled_afterCancel w ctx cancel hl⟩
    show (cancelStored w ctx).2 ++ _ = _
    rw [cancelStored_some w ctx cancel hl]
    rfl
  · intro hnone
    refine ⟨?_, ?_⟩
    · show (cancelStored w ctx).2 ++ _ = _
      rw [cancelStored_none w ctx hnone]
      rfl
    · show afterCancel w ctx = w
      unfold afterCancel
      rw [cancelStored_none w ctx hnone]
  · intro mon hmon hk
    have hmon2 : mon ∈ w.monitors := hm ▸ hmon
    obtain ⟨p, id, hctx, hlook⟩ := hown mon hmon2
    have hcan : id ∈ (afterCancel w ctx).canceled := by
      by_cases hin : id ∈ w.canceled
      · exact mem_canceled_afterCancel w ctx id hin
      · have hl := hlook hin
        rw [hk] at hl
        exact stored_canceled_afterCancel w ctx id hl
    show (!(mon.monitorCtx.err (afterCancel w ctx))) = false
    rw [hctx, err_of_canceled _ p id hcan]
    rfl

/-- C8, amended, after one successful `Request`: `Close` with a failing rest
of the chain still cancels the monitor of the request. -/
theorem C8_close_stops_monitoring_witness :
    firstMonitor ∈ (server.Close rejectAll
        (calls server World.empty [Call.request acceptAll callCtx {}]) callCtx {}).world.monitors
      ∧ firstMonitor.live (server.Close rejectAll
          (calls server World.empty [Call.request acceptAll callCtx {}]) callCtx {}).world
          = false :=
  ⟨by decide,
    (C8_close_stops_monitoring server [Call.request acceptAll callCtx {}] rejectAll callCtx
      {}).2.2.2.2 firstMonitor (by decide) rfl⟩

/-! ### The goroutine of a monitor -/

theorem turn_watching (MatchEndpoint : Matcher) (mon : Monitor) (g : Goroutine) (w : World)
    (netsvc : registry.NetworkService)
    (lookup : Except String (List registry.NetworkServiceEndpoint))
    (hp : g.phase = Phase.watching) (hl : mon.live w = true) :
    turn MatchEndpoint mon g w (Observation.update netsvc lookup)
      = onUpdate MatchEndpoint mon g netsvc lookup := by
  have he : mon.monitorCtx.err w = false := by
    unfold Monitor.live at hl
    simpa using hl
  unfold turn
  rw [hp]
  simp [he]

theorem turn_returned (MatchEndpoint : Matcher) (mon : Monitor) (g : Goroutine) (w : World)
    (o : Observation) (hp : g.phase = Phase.returned) : turn MatchEndpoint mon g w o = g := by
  unfold turn
  rw [hp]

theorem closes_snoc_find (a : List MonitorAction) (p : Phase) (name : String) :
    closes { phase := p, actions := a ++ [MonitorAction.findEndpoint name] }
      = closes { phase := Phase.watching, actions := a } := by
  simp [closes]

theorem closes_snoc_close (a : List MonitorAction) (p : Phase) (name : String)
    (ctx : CallContext) :
    closes { phase := p,
             actions := a ++ [MonitorAction.findEndpoint name] ++ [MonitorAction.beginClose ctx] }
      = closes { phase := Phase.watching, actions := a } + 1 := by
  simp [closes]

theorem closes_phase (g : Goroutine) (p : Phase) :
    closes { phase := p, actions := g.actions } = closes g := rfl

/-- What one update does, by the outcome of the lookup: the goroutine returns
with one more close exactly when the lookup gave at least one endpoint and no
endpoint matches; in every other case it keeps watching with no more close. -/
theorem onUpdate_cases (MatchEndpoint : Matcher) (mon : Monitor) (g : Goroutine)
    (netsvc : registry.NetworkService)
    (lookup : Except String (List registry.NetworkServiceEndpoint)) :
    ((onUpdate MatchEndpoint mon g netsvc lookup).phase = Phase.returned
        ∧ closes (onUpdate MatchEndpoint mon g netsvc lookup) = closes g + 1
        ∧ ∃ nses, lookup = .ok nses ∧ nses ≠ []
            ∧ MatchEndpoint (GetLabels mon.resp) netsvc nses = [])
      ∨ ((onUpdate MatchEndpoint mon g netsvc lookup).phase = Phase.watching
        ∧ closes (onUpdate MatchEndpoint mon g netsvc lookup) = closes g
        ∧ ¬ ∃ nses, lookup = .ok nses ∧ nses ≠ []
            ∧ MatchEndpoint (GetLabels mon.resp) netsvc nses = []) := by
  cases lookup with
  | error e =>
    have hU : onUpdate MatchEndpoint mon g netsvc (.error e)
        = { phase := Phase.watching,
            actions := g.actions
              ++ [MonitorAction.findEndpoint (GetNetworkServiceEndpointName mon.conn)] } := rfl
    rw [hU]
    refine Or.inr ⟨rfl, closes_snoc_find _ _ _, ?_⟩
    rintro ⟨nses, h, _⟩
    cases h
  | ok nses =>
    by_cases h0 : nses = []
    · subst h0
      have hU : onUpdate MatchEndpoint mon g netsvc (.ok [])
          = { phase := Phase.watching,
              actions := g.actions
                ++ [MonitorAction.findEndpoint (GetNetworkServiceEndpointName mon.conn)] } := rfl
      rw [hU]
      refine Or.inr ⟨rfl, closes_snoc_find _ _ _, ?_⟩
      rintro ⟨nses, h, hne, _⟩
      cases h
      exact hne rfl
    · have hlen : (nses.length == 0) = false := by simpa using h0
      by_cases hm : MatchEndpoint (GetLabels mon.resp) netsvc nses = []
      · have hU : onUpdate MatchEndpoint mon g netsvc (.ok nses)
            = { phase := Phase.returned,
                actions := g.actions
                  ++ [MonitorAction.findEndpoint (GetNetworkServiceEndpointName mon.conn)]
                  ++ [MonitorAction.beginClose mon.ctx] } := by
          simp [onUpdate, hlen, hm]
        rw [hU]
        exact Or.inl ⟨rfl, closes_snoc_close _ _ _ _, nses, rfl, h0, hm⟩
      · have hml : ((MatchEndpoint (GetLabels mon.resp) netsvc nses).length == 0) = false := by
          simpa using hm
        have hU : onUpdate MatchEndpoint mon g netsvc (.ok nses)
            = { phase := Phase.watching,
                actions := g.actions
                  ++ [MonitorAction.findEndpoint (GetNetworkServiceEndpointName mon.conn)] } := by
          simp [onUpdate, hlen, hml]
        rw [hU]
        refine Or.inr ⟨rfl, closes_snoc_find _ _ _, ?_⟩
        rintro ⟨nses2, h, _, hm2⟩
        cases h
        exact hm hm2

theorem closedOnce_turn (MatchEndpoint : Matcher) (mon : Monitor) (g : Goroutine) (w : World)
    (o : Observation) (h : ClosedOnce g) : ClosedOnce (turn MatchEndpoint mon g w o) := by
  cases hp : g.phase with
  | returned => rw [turn_returned MatchEndpoint mon g w o hp]; exact h
  | finding =>
    have h0 : closes g = 0 := by
      rcases h with h | ⟨h, _⟩
      · exact h
      · rw [hp] at h; cases h
    unfold turn
    rw [hp]
    by_cases he : mon.monitorCtx.err w = true
    · simp only [he, if_true]
      exact Or.inl h0
    · simp only [he, Bool.false_eq_true, if_false]
      cases o with
      | findFailed e => exact Or.inl (by simpa [closes] using h0)
      | findStream => exact Or.inl (by simpa [closes] using h0)
      | streamClosed => exact Or.inl h0
      | update n l => exact Or.inl h0
  | watching =>
    have h0 : closes g = 0 := by
      rcases h with h | ⟨h, _⟩
      · exact h
      · rw [hp] at h; cases h
    by_cases he : mon.monitorCtx.err w = true
    · have ht : turn MatchEndpoint mon g w o = { g with phase := Phase.returned } := by
        unfold turn
        rw [hp]
        simp [he]
      rw [ht]
      exact Or.inl h0
    · have hl : mon.live w = true := by
        unfold Monitor.live
        simpa using he
      cases o with
      | update n l =>
        rw [turn_watching MatchEndpoint mon g w n l hp hl]
        rcases onUpdate_cases MatchEndpoint mon g n l with ⟨h1, h2, _⟩ | ⟨_, h2, _⟩
        · exact Or.inr ⟨h1, by rw [h2, h0]⟩
        · exact Or.inl (by rw [h2, h0])
      | streamClosed =>
        have ht : turn MatchEndpoint mon g w Observation.streamClosed
            = { phase := Phase.finding, actions := g.actions ++ [MonitorAction.sleep] } := by
          unfold turn
          rw [hp]
          simp [he]
        rw [ht]
        exact Or.inl (by simpa [closes] using h0)
      | findFailed e =>
        have ht : turn MatchEndpoint mon g w (Observation.findFailed e) = g := by
          unfold turn
          rw [hp]
          simp [he]
        rw [ht]
        exact Or.inl h0
      | findStream =>
        have ht : turn MatchEndpoint mon g w Observation.findStream = g := by
          unfold turn
          rw [hp]
          simp [he]
        rw [ht]
        exact Or.inl h0

theorem closedOnce_turns (MatchEndpoint : Matcher) (mon : Monitor)
    (os : List (World × Observation)) (g : Goroutine) (h : ClosedOnce g) :
    ClosedOnce (turns MatchEndpoint mon g os) := by
  induction os generalizing g with
  | nil => exact h
  | cons wo t ih => exact ih _ (closedOnce_turn MatchEndpoint mon g wo.1 wo.2 h)

/-- C11: for every update `netsvc` that the goroutine of a monitor receives
on the stream while `monitorCtx` is live: when the endpoint lookup returns at
least one endpoint and `MatchEndpoint` under the labels of the response finds
none, the goroutine triggers the Close of the connection once and returns
(later turns change nothing); when the lookup fails, returns no endpoint, or
at least one endpoint matches, no Close is triggered and the goroutine keeps
watching.  Over any sequence of turns the Close is triggered at most once. -/
theorem C11_update_closes_exactly_on_mismatch (MatchEndpoint : Matcher) (mon : Monitor)
    (g : Goroutine) (w : World) (netsvc : registry.NetworkService)
    (hp : g.phase = Phase.watching) (hl : mon.live w = true) :
    (∀ nses : List registry.NetworkServiceEndpoint, nses ≠ [] →
        MatchEndpoint (GetLabels mon.resp) netsvc nses = [] →
          (turn MatchEndpoint mon g w (.update netsvc (.ok nses))).phase = Phase.returned
          ∧ (turn MatchEndpoint mon g w (.update netsvc (.ok nses))).actions
              = g.actions
                  ++ [MonitorAction.findEndpoint (GetNetworkServiceEndpointName mon.conn),
                      MonitorAction.beginClose mon.ctx]
          ∧ closes (turn MatchEndpoint mon g w (.update netsvc (.ok nses))) = closes g + 1
          ∧ ∀ (w2 : World) (o : Observation),
              turn MatchEndpoint mon (turn MatchEndpoint mon g w (.update netsvc (.ok nses)))
                  w2 o
                = turn MatchEndpoint mon g w (.update netsvc (.ok nses)))
      ∧ (∀ e : String,
          (turn MatchEndpoint mon g w (.update netsvc (.error e))).phase = Phase.watching
          ∧ closes (turn MatchEndpoint mon g w (.update netsvc (.error e))) = closes g)
      ∧ ((turn MatchEndpoint mon g w (.update netsvc (.ok []))).phase = Phase.watching
          ∧ closes (turn MatchEndpoint mon g w (.update netsvc (.ok []))) = closes g)
      ∧ (∀ nses : List registry.NetworkServiceEndpoint,
          MatchEndpoint (GetLabels mon.resp) netsvc nses ≠ [] →
            (turn MatchEndpoint mon g w (.update netsvc (.ok nses))).phase = Phase.watching
            ∧ closes (turn MatchEndpoint mon g w (.update netsvc (.ok nses))) = closes g)
      ∧ (∀ os : List (World × Observation),
          closes (turns MatchEndpoint mon Goroutine.start os) ≤ 1) := by
  refine ⟨?_, ?_, ?_, ?_, ?_⟩
  · intro nses hne hm
    rw [turn_watching MatchEndpoint mon g w netsvc _ hp hl]
    have hlen : (nses.length == 0) = false := by simpa using hne
    have hU : onUpdate MatchEndpoint mon g netsvc (.ok nses)
        = { phase := Phase.returned,
            actions := g.actions
              ++ [MonitorAction.findEndpoint (GetNetworkServiceEndpointName mon.conn)]
              ++ [MonitorAction.beginClose mon.ctx] } := by
      simp [onUpdate, hlen, hm]
    rw [hU]
    refine ⟨rfl, by simp, closes_snoc_close _ _ _ _, ?_⟩
    intro w2 o
    exact turn_returned MatchEndpoint mon _ w2 o rfl
  · intro e
    rw [turn_watching MatchEndpoint mon g w netsvc _ hp hl]
    rcases onUpdate_cases MatchEndpoint mon g netsvc (.error e) with ⟨_, _, n, h, _⟩ | ⟨h1, h2, _⟩
    · cases h
    · exact ⟨h1, h2⟩
  · rw [turn_watching MatchEndpoint mon g w netsvc _ hp hl]
    rcases onUpdate_cases MatchEndpoint mon g netsvc (.ok []) with ⟨_, _, n, h, hne, _⟩ | ⟨h1, h2, _⟩
    · cases h
      exact absurd rfl hne
    · exact ⟨h1, h2⟩
  · intro nses hm
    rw [turn_watching MatchEndpoint mon g w netsvc _ hp hl]
    rcases onUpdate_cases MatchEndpoint mon g netsvc (.ok nses) with ⟨_, _, n, h, _, hm2⟩ | ⟨h1, h2, _⟩
    · cases h
      exact absurd hm2 hm
    · exact ⟨h1, h2⟩
  · intro os
    have h := closedOnce_turns MatchEndpoint mon os Goroutine.start (Or.inl rfl)
    rcases h with h | ⟨_, h⟩
    · rw [h]; exact Nat.zero_le _
    · rw [h]

/-- C11, on the monitor of the first request, watching in a world where its
context is live: the update of `ns-1` finds the endpoint `nse-1`, which serves
another network service only, and the goroutine closes the connection. -/
theorem C11_update_closes_exactly_on_mismatch_witness :
    (turn servesMatcher firstMonitor { phase := Phase.watching, actions := [] } trackedWorld
        (.update { name := "ns-1" }
          (.ok [{ name := "nse-1", networkServiceNames := ["ns-2"] }]))).phase
        = Phase.returned
      ∧ closes
          (turn servesMatcher firstMonitor { phase := Phase.watching, actions := [] }
            trackedWorld
            (.update { name := "ns-1" }
              (.ok [{ name := "nse-1", networkServiceNames := ["ns-2"] }])))
        = 1 :=
  ⟨((C11_update_closes_exactly_on_mismatch servesMatcher firstMonitor
        { phase := Phase.watching, actions := [] } trackedWorld { name := "ns-1" } rfl
        (by decide)).1
      [{ name := "nse-1", networkServiceNames := ["ns-2"] }] (by decide) (by decide)).1,
    ((C11_update_closes_exactly_on_mismatch servesMatcher firstMonitor
        { phase := Phase.watching, actions := [] } trackedWorld { name := "ns-1" } rfl
        (by decide)).1
      [{ name := "nse-1", networkServiceNames := ["ns-2"] }] (by decide) (by decide)).2.2.1⟩

end netsvcmonitor

/-! ## The `authorize` registry client: theorems -/

namespace authorize

open registry

theorem policies_length (c : authorizeNSEClient) (h : c.policies ≠ []) :
    (c.policies.length == 0) = false := by
  cases hp : c.policies with
  | nil => exact absurd hp h
  | cons a t => rfl

theorem storePeer_map (c : authorizeNSEClient) (p : Option Peer) :
    (storePeer c p).nsePathIdsMap = c.nsePathIdsMap := by
  cases p <;> rfl

theorem Register_no_policies (c : authorizeNSEClient) (h : Helpers) (next : NextClient)
    (ctx : Context) (nse : NetworkServiceEndpoint) (hp : c.policies = []) :
    c.Register h next ctx nse
      = { returned := .pair (next.Register ctx nse).resp (next.Register ctx nse).err,
          client := c, events := [.Register nse] } := by
  unfold authorizeNSEClient.Register
  simp [hp]

theorem Register_failed (c : authorizeNSEClient) (h : Helpers) (next : NextClient)
    (ctx : Context) (nse : NetworkServiceEndpoint) (err : String) (hp : c.policies ≠ [])
    (he : (next.Register ctx nse).err = some err) :
    c.Register h next ctx nse
      = { returned := .pair none (some err), client := c, events := [.Register nse] } := by
  unfold authorizeNSEClient.Register
  simp [policies_length c hp, he]

theorem Register_no_spiffe (c : authorizeNSEClient) (h : Helpers) (next : NextClient)
    (ctx : Context) (nse : NetworkServiceEndpoint) (err : String) (hp : c.policies ≠ [])
    (he : (next.Register ctx nse).err = none)
    (hs : h.getSpiffeIDFromPath (next.Register ctx nse).path = .error err) :
    c.Register h next ctx nse
      = { returned := .pair none (some err),
          client := storePeer c (next.Register ctx nse).peer, events := [.Register nse] } := by
  unfold authorizeNSEClient.Register
  simp [policies_length c hp, he, hs]

theorem Register_nil (c : authorizeNSEClient) (h : Helpers) (next : NextClient)
    (ctx : Context) (nse : NetworkServiceEndpoint) (spiffeID : String) (hp : c.policies ≠ [])
    (he : (next.Register ctx nse).err = none)
    (hs : h.getSpiffeIDFromPath (next.Register ctx nse).path = .ok spiffeID)
    (hr : (next.Register ctx nse).resp = none) :
    c.Register h next ctx nse
      = { returned := .nilDereference,
          client := storePeer c (next.Register ctx nse).peer, events := [.Register nse] } := by
  unfold authorizeNSEClient.Register
  simp [policies_length c hp, he, hs, hr]

theorem Register_rejected (c : authorizeNSEClient) (h : Helpers) (next : NextClient)
    (ctx : Context) (nse resp : NetworkServiceEndpoint) (spiffeID err : String)
    (hp : c.policies ≠ [])
    (he : (next.Register ctx nse).err = none)
    (hs : h.getSpiffeIDFromPath (next.Register ctx nse).path = .ok spiffeID)
    (hr : (next.Register ctx nse).resp = some resp)
    (hc : h.check c.policies (registerContext ctx (next.Register ctx nse))
            (opaInput h c spiffeID resp.name (next.Register ctx nse).path) = some err) :
    c.Register h next ctx nse
      = { returned := .pair none (some (rejection err
              (next.Unregister { path := (next.Register ctx nse).path, peer := ctx.peer }
                resp).err)),
          client := storePeer c (next.Register ctx nse).peer,
          events := [.Register nse,
                     .check (opaInput h c spiffeID resp.name (next.Register ctx nse).path),
                     .Unregister resp] } := by
  unfold authorizeNSEClient.Register
  simp [policies_length c hp, he, hs, hr, hc]

theorem Register_accepted (c : authorizeNSEClient) (h : Helpers) (next : NextClient)
    (ctx : Context) (nse resp : NetworkServiceEndpoint) (spiffeID : String)
    (hp : c.policies ≠ [])
    (he : (next.Register ctx nse).err = none)
    (hs : h.getSpiffeIDFromPath (next.Register ctx nse).path = .ok spiffeID)
    (hr : (next.Register ctx nse).resp = some resp)
    (hc : h.check c.policies (registerContext ctx (next.Register ctx nse))
            (opaInput h c spiffeID resp.name (next.Register ctx nse).path) = none) :
    c.Register h next ctx nse
      = { returned := .pair (some resp) none,
          client :=
            { storePeer c (next.Register ctx nse).peer with
              nsePathIdsMap :=
                (storePeer c (next.Register ctx nse).peer).nsePathIdsMap.Store
                  resp.name resp.pathIds },
          events := [.Register nse,
                     .check (opaInput h c spiffeID resp.name (next.Register ctx nse).path)] } := by
  unfold authorizeNSEClient.Register
  simp [policies_length c hp, he, hs, hr, hc]

/-- C12: on a client with at least one policy, when the downstream
`Register` succeeds and the policy check rejects the input, `Register`
returns no endpoint and an error, calls the downstream `Unregister` exactly
once, on the endpoint just registered, and leaves the map of path IDs
unchanged.  The map changes only by the entry `resp.Name -> resp.PathIds`,
stored when the downstream `Register` succeeds and the check passes, and it is
stored then.  With no policies `Register` returns the downstream result
unchanged and does not touch the client. -/
theorem C12_register_rejected_is_unregistered :
    (∀ (c : authorizeNSEClient) (h : Helpers) (next : NextClient) (ctx : Context)
        (nse resp : NetworkServiceEndpoint) (spiffeID err : String),
        c.policies ≠ [] →
        (next.Register ctx nse).err = none →
        (next.Register ctx nse).resp = some resp →
        h.getSpiffeIDFromPath (next.Register ctx nse).path = .ok spiffeID →
        h.check c.policies (registerContext ctx (next.Register ctx nse))
            (opaInput h c spiffeID resp.name (next.Register ctx nse).path) = some err →
          (∃ e : String, (c.Register h next ctx nse).returned = .pair none (some e))
          ∧ (c.Register h next ctx nse).events.filter Event.isUnregister
              = [Event.Unregister resp]
          ∧ (c.Register h next ctx nse).events
              = [Event.Register nse,
                 Event.check (opaInput h c spiffeID resp.name (next.Register ctx nse).path),
                 Event.Unregister resp]
          ∧ (c.Register h next ctx nse).client.nsePathIdsMap = c.nsePathIdsMap)
    ∧ (∀ (c : authorizeNSEClient) (h : Helpers) (next : NextClient) (ctx : Context)
        (nse : NetworkServiceEndpoint),
          (c.Register h next ctx nse).client.nsePathIdsMap = c.nsePathIdsMap
          ∨ (c.policies ≠ []
              ∧ ∃ (resp : NetworkServiceEndpoint) (spiffeID : String),
                  (next.Register ctx nse).err = none
                  ∧ (next.Register ctx nse).resp = some resp
                  ∧ h.getSpiffeIDFromPath (next.Register ctx nse).path = .ok spiffeID
                  ∧ h.check c.policies (registerContext ctx (next.Register ctx nse))
                      (opaInput h c spiffeID resp.name (next.Register ctx nse).path) = none
                  ∧ (c.Register h next ctx nse).client.nsePathIdsMap
                      = c.nsePathIdsMap.Store resp.name resp.pathIds))
    ∧ (∀ (c : authorizeNSEClient) (h : Helpers) (next : NextClient) (ctx : Context)
        (nse resp : NetworkServiceEndpoint) (spiffeID : String),
        c.policies ≠ [] →
        (next.Register ctx nse).err = none →
        (next.Register ctx nse).resp = some resp →
        h.getSpiffeIDFromPath (next.Register ctx nse).path = .ok spiffeID →
        h.check c.policies (registerContext ctx (next.Register ctx nse))
            (opaInput h c spiffeID resp.name (next.Register ctx nse).path) = none →
          (c.Register h next ctx nse).returned = .pair (some resp) none
          ∧ (c.Register h next ctx nse).client.nsePathIdsMap
              = c.nsePathIdsMap.Store resp.name resp.pathIds
          ∧ (c.Register h next ctx nse).events.filter Event.isUnregister = [])
    ∧ (∀ (c : authorizeNSEClient) (h : Helpers) (next : NextClient) (ctx : Context)
        (nse : NetworkServiceEndpoint),
        c.policies = [] →
          (c.Register h next ctx nse).returned
              = .pair (next.Register ctx nse).resp (next.Register ctx nse).err
          ∧ (c.Register h next ctx nse).client = c
          ∧ (c.Register h next ctx nse).events = [Event.Register nse]) := by
  refine ⟨?_, ?_, ?_, ?_⟩
  · intro c h next ctx nse resp spiffeID err hp he hr hs hc
    rw [Register_rejected c h next ctx nse resp spiffeID err hp he hs hr hc]
    exact ⟨⟨_, rfl⟩, rfl, rfl, storePeer_map _ _⟩
  · intro c h next ctx nse
    by_cases hp : c.policies = []
    · rw [Register_no_policies c h next ctx nse hp]
      exact Or.inl rfl
    · cases he : (next.Register ctx nse).err with
      | some err =>
        rw [Register_failed c h next ctx nse err hp he]
        exact Or.inl rfl
      | none =>
        cases hs : h.getSpiffeIDFromPath (next.Register ctx nse).path with
        | error err =>
          rw [Register_no_spiffe c h next ctx nse err hp he hs]
          exact Or.inl (storePeer_map _ _)
        | ok spiffeID =>
          cases hr : (next.Register ctx nse).resp with
          | none =>
            rw [Register_nil c h next ctx nse spiffeID hp he hs hr]
            exact Or.inl (storePeer_map _ _)
          | some resp =>
            cases hc : h.check c.policies (registerContext ctx (next.Register ctx nse))
                (opaInput h c spiffeID resp.name (next.Register ctx nse).path) with
            | some err =>
              rw [Register_rejected c h next ctx nse resp spiffeID err hp he hs hr hc]
              exact Or.inl (storePeer_map _ _)
            | none =>
              rw [Register_accepted c h next ctx nse resp spiffeID hp he hs hr hc]
              refine Or.inr ⟨hp, resp, spiffeID, rfl, rfl, rfl, hc, ?_⟩
              show PathIdsMap.Store (storePeer c _).nsePathIdsMap _ _ = _
              rw [storePeer_map]
  · intro c h next ctx nse resp spiffeID hp he hr hs hc
    rw [Register_accepted c h next ctx nse resp spiffeID hp he hs hr hc]
    refine ⟨rfl, ?_, rfl⟩
    show PathIdsMap.Store (storePeer c _).nsePathIdsMap _ _ = _
    rw [storePeer_map]
  · intro c h next ctx nse hp
    rw [Register_no_policies c h next ctx nse hp]
    exact ⟨rfl, rfl, rfl⟩

/-- C12, on the example client: the registration of `forbidden` succeeds
downstream, is rejected by the policy, and is undone by one `Unregister` of
the endpoint that was registered; the map is the map before. -/
theorem C12_register_rejected_is_unregistered_witness :
    (exampleClient.Register exampleHelpers exampleNext {} { name := "forbidden" }).events.filter
        Event.isUnregister
        = [Event.Unregister { name := "forbidden", pathIds := ["spiffe-a"] }]
      ∧ (exampleClient.Register exampleHelpers exampleNext {}
            { name := "forbidden" }).client.nsePathIdsMap
        = exampleClient.nsePathIdsMap :=
  ⟨(C12_register_rejected_is_unregistered.1 exampleClient exampleHelpers exampleNext {}
      { name := "forbidden" } { name := "forbidden", pathIds := ["spiffe-a"] } "spiffe-b"
      "denied" (by decide) rfl rfl rfl rfl).2.1,
    (C12_register_rejected_is_unregistered.1 exampleClient exampleHelpers exampleNext {}
      { name := "forbidden" } { name := "forbidden", pathIds := ["spiffe-a"] } "spiffe-b"
      "denied" (by decide) rfl rfl rfl rfl).2.2.2⟩

theorem Unregister_no_policies (c : authorizeNSEClient) (h : Helpers) (next : NextClient)
    (ctx : Context) (nse : NetworkServiceEndpoint) (hp : c.policies = []) :
    c.Unregister h next ctx nse
      = { returned := .pair (next.Unregister ctx nse).resp (next.Unregister ctx nse).err,
          client := c, events := [.Unregister nse] } := by
  unfold authorizeNSEClient.Unregister
  simp [hp]

theorem Unregister_failed (c : authorizeNSEClient) (h : Helpers) (next : NextClient)
    (ctx : Context) (nse : NetworkServiceEndpoint) (err : String) (hp : c.policies ≠ [])
    (he : (next.Unregister ctx nse).err = some err) :
    c.Unregister h next ctx nse
      = { returned := .pair none (some err), client := c, events := [.Unregister nse] } := by
  unfold authorizeNSEClient.Unregister
  simp [policies_length c hp, he]

theorem Unregister_no_spiffe (c : authorizeNSEClient) (h : Helpers) (next : NextClient)
    (ctx : Context) (nse : NetworkServiceEndpoint) (err : String) (hp : c.policies ≠ [])
    (he : (next.Unregister ctx nse).err = none)
    (hs : h.getSpiffeIDFromPath (next.Unregister ctx nse).path = .error err) :
    c.Unregister h next ctx nse
      = { returned := .pair none (some err), client := c, events := [.Unregister nse] } := by
  unfold authorizeNSEClient.Unregister
  simp [policies_length c hp, he, hs]

theorem Unregister_rejected (c : authorizeNSEClient) (h : Helpers) (next : NextClient)
    (ctx : Context) (nse : NetworkServiceEndpoint) (spiffeID err : String)
    (hp : c.policies ≠ [])
    (he : (next.Unregister ctx nse).err = none)
    (hs : h.getSpiffeIDFromPath (next.Unregister ctx nse).path = .ok spiffeID)
    (hc : h.check c.policies (unregisterContext c ctx (next.Unregister ctx nse))
            (opaInput h c spiffeID nse.name (next.Unregister ctx nse).path) = some err) :
    c.Unregister h next ctx nse
      = { returned := .pair none (some err), client := c,
          events := [.Unregister nse,
                     .check (opaInput h c spiffeID nse.name (next.Unregister ctx nse).path)] } := by
  unfold authorizeNSEClient.Unregister
  simp [policies_length c hp, he, hs, hc]

theorem Unregister_accepted (c : authorizeNSEClient) (h : Helpers) (next : NextClient)
    (ctx : Context) (nse : NetworkServiceEndpoint) (spiffeID : String)
    (hp : c.policies ≠ [])
    (he : (next.Unregister ctx nse).err = none)
    (hs : h.getSpiffeIDFromPath (next.Unregister ctx nse).path = .ok spiffeID)
    (hc : h.check c.policies (unregisterContext c ctx (next.Unregister ctx nse))
            (opaInput h c spiffeID nse.name (next.Unregister ctx nse).path) = none) :
    c.Unregister h next ctx nse
      = { returned := .pair (next.Unregister ctx nse).resp none,
          client := { c with nsePathIdsMap := c.nsePathIdsMap.Delete nse.name },
          events := [.Unregister nse,
                     .check (opaInput h c spiffeID nse.name (next.Unregister ctx nse).path)] } := by
  unfold authorizeNSEClient.Unregister
  simp [policies_length c hp, he, hs, hc]

theorem lookup_Delete_self (m : PathIdsMap) (name : String) :
    (m.Delete name).lookup name = none := by
  induction m with
  | nil => rfl
  | cons a t ih =>
    obtain ⟨a1, a2⟩ := a
    unfold PathIdsMap.Delete at ih ⊢
    by_cases h1 : a1 = name
    · rw [List.filter_cons_of_neg (by simp [h1])]
      exact ih
    · have hb : (name == a1) = false := by simpa using Ne.symm h1
      rw [List.filter_cons_of_pos (by simp [h1]), List.lookup_cons, hb]
      exact ih

theorem lookup_Delete_ne (m : PathIdsMap) (name other : String) (h : other ≠ name) :
    (m.Delete name).lookup other = m.lookup other := by
  induction m with
  | nil => rfl
  | cons a t ih =>
    obtain ⟨a1, a2⟩ := a
    unfold PathIdsMap.Delete at ih ⊢
    by_cases h1 : a1 = name
    · have hb : (other == a1) = false := by
        simpa using fun h2 : other = a1 => h (h2.trans h1)
      rw [List.filter_cons_of_neg (by simp [h1]), ih, List.lookup_cons, hb]
    · rw [List.filter_cons_of_pos (by simp [h1]), List.lookup_cons, List.lookup_cons, ih]

/-- C13: on a client with at least one policy, `Unregister` invokes the
downstream `Unregister` before the policies are evaluated (the downstream call
is the first event, and a check, when there is one, is the second and last).
When the downstream call succeeds and the check rejects, or the SPIFFE ID
cannot be read from the path, `Unregister` returns nil and an error and the
client, with the entry of `nse.Name` in its map of path IDs, is as before,
although the endpoint has been unregistered downstream.  The entry is deleted
exactly when the downstream call succeeds and the check passes: then the map
holds nothing for `nse.Name` afterwards and what it holds for every other name
is unchanged; otherwise the map holds for `nse.Name` what it held before. -/
theorem C13_unregister_checks_after_downstream :
    (∀ (c : authorizeNSEClient) (h : Helpers) (next : NextClient) (ctx : Context)
        (nse : NetworkServiceEndpoint),
        c.policies ≠ [] →
          (c.Unregister h next ctx nse).events.head? = some (Event.Unregister nse)
          ∧ (c.Unregister h next ctx nse).events.filter Event.isUnregister
              = [Event.Unregister nse]
          ∧ ∀ input : RegistryOpaInput, Event.check input ∈ (c.Unregister h next ctx nse).events →
              (c.Unregister h next ctx nse).events
                = [Event.Unregister nse, Event.check input])
    ∧ (∀ (c : authorizeNSEClient) (h : Helpers) (next : NextClient) (ctx : Context)
        (nse : NetworkServiceEndpoint) (spiffeID err : String),
        c.policies ≠ [] →
        (next.Unregister ctx nse).err = none →
        h.getSpiffeIDFromPath (next.Unregister ctx nse).path = .ok spiffeID →
        h.check c.policies (unregisterContext c ctx (next.Unregister ctx nse))
            (opaInput h c spiffeID nse.name (next.Unregister ctx nse).path) = some err →
          (c.Unregister h next ctx nse).returned = .pair none (some err)
          ∧ (c.Unregister h next ctx nse).client = c
          ∧ (c.Unregister h next ctx nse).events
              = [Event.Unregister nse,
                 Event.check (opaInput h c spiffeID nse.name (next.Unregister ctx nse).path)])
    ∧ (∀ (c : authorizeNSEClient) (h : Helpers) (next : NextClient) (ctx : Context)
        (nse : NetworkServiceEndpoint) (err : String),
        c.policies ≠ [] →
        (next.Unregister ctx nse).err = none →
        h.getSpiffeIDFromPath (next.Unregister ctx nse).path = .error err →
          (c.Unregister h next ctx nse).returned = .pair none (some err)
          ∧ (c.Unregister h next ctx nse).client = c
          ∧ (c.Unregister h next ctx nse).events = [Event.Unregister nse])
    ∧ (∀ (c : authorizeNSEClient) (h : Helpers) (next : NextClient) (ctx : Context)
        (nse : NetworkServiceEndpoint),
        c.policies ≠ [] →
          (Authorized c h next ctx nse →
            (c.Unregister h next ctx nse).client.nsePathIdsMap
                = c.nsePathIdsMap.Delete nse.name
              ∧ (c.Unregister h next ctx nse).returned
                = .pair (next.Unregister ctx nse).resp none
              ∧ (c.Unregister h next ctx nse).client.nsePathIdsMap.lookup nse.name = none
              ∧ ∀ other : String, other ≠ nse.name →
                  (c.Unregister h next ctx nse).client.nsePathIdsMap.lookup other
                    = c.nsePathIdsMap.lookup other)
          ∧ (¬ Authorized c h next ctx nse →
            (c.Unregister h next ctx nse).client = c
              ∧ (∃ e : String, (c.Unregister h next ctx nse).returned = .pair none (some e))
              ∧ (c.Unregister h next ctx nse).client.nsePathIdsMap.lookup nse.name
                  = c.nsePathIdsMap.lookup nse.name)) := by
  refine ⟨?_, ?_, ?_, ?_⟩
  · intro c h next ctx nse hp
    cases he : (next.Unregister ctx nse).err with
    | some err =>
      rw [Unregister_failed c h next ctx nse err hp he]
      refine ⟨rfl, rfl, ?_⟩
      intro input hin
      simp at hin
    | none =>
      cases hs : h.getSpiffeIDFromPath (next.Unregister ctx nse).path with
      | error err =>
        rw [Unregister_no_spiffe c h next ctx nse err hp he hs]
        refine ⟨rfl, rfl, ?_⟩
        intro input hin
        simp at hin
      | ok spiffeID =>
        cases hc : h.check c.policies (unregisterContext c ctx (next.Unregister ctx nse))
            (opaInput h c spiffeID nse.name (next.Unregister ctx nse).path) with
        | some err =>
          rw [Unregister_rejected c h next ctx nse spiffeID err hp he hs hc]
          refine ⟨rfl, rfl, ?_⟩
          intro input hin
          simp at hin
          rw [hin]
        | none =>
          rw [Unregister_accepted c h next ctx nse spiffeID hp he hs hc]
          refine ⟨rfl, rfl, ?_⟩
          intro input hin
          simp at hin
          rw [hin]
  · intro c h next ctx nse spiffeID err hp he hs hc
    rw [Unregister_rejected c h next ctx nse spiffeID err hp he hs hc]
    exact ⟨rfl, rfl, rfl⟩
  · intro c h next ctx nse err hp he hs
    rw [Unregister_no_spiffe c h next ctx nse err hp he hs]
    exact ⟨rfl, rfl, rfl⟩
  · intro c h next ctx nse hp
    constructor
    · rintro ⟨he, spiffeID, hs, hc⟩
      rw [Unregister_accepted c h next ctx nse spiffeID hp he hs hc]
      exact ⟨rfl, rfl, lookup_Delete_self _ _, fun other ho => lookup_Delete_ne _ _ other ho⟩
    · intro hn
      cases he : (next.Unregister ctx nse).err with
      | some err =>
        rw [Unregister_failed c h next ctx nse err hp he]
        exact ⟨rfl, ⟨err, rfl⟩, rfl⟩
      | none =>
        cases hs : h.getSpiffeIDFromPath (next.Unregister ctx nse).path with
        | error err =>
          rw [Unregister_no_spiffe c h next ctx nse err hp he hs]
          exact ⟨rfl, ⟨err, rfl⟩, rfl⟩
        | ok spiffeID =>
          cases hc : h.check c.policies (unregisterContext c ctx (next.Unregister ctx nse))
              (opaInput h c spiffeID nse.name (next.Unregister ctx nse).path) with
          | some err =>
            rw [Unregister_rejected c h next ctx nse spiffeID err hp he hs hc]
            exact ⟨rfl, ⟨err, rfl⟩, rfl⟩
          | none => exact absurd ⟨he, spiffeID, hs, hc⟩ hn

/-- C13, on the example client, where `nse-1` is registered under `spiffe-a`.
A call that comes with `spiffe-b` is unregistered downstream first, rejected
by the policy, and the entry of `nse-1` is still in the map.  A call that
comes with `spiffe-a` is unregistered downstream, passes the check, and the
map holds nothing for `nse-1` afterwards. -/
theorem C13_unregister_checks_after_downstream_witness :
    (exampleClient.Unregister exampleHelpers exampleNext {} { name := "nse-1" }).returned
        = .pair none (some "denied")
      ∧ (exampleClient.Unregister exampleHelpers exampleNext {} { name := "nse-1" }).client
        = exampleClient
      ∧ (exampleClient.Unregister exampleHelpers exampleNext {} { name := "nse-1" }).events.head?
        = some (Event.Unregister { name := "nse-1" })
      ∧ exampleClient.nsePathIdsMap.lookup "nse-1" = some ["spiffe-a"]
      ∧ (exampleClient.Unregister exampleHelpers exampleNextOwner {}
            { name := "nse-1" }).client.nsePathIdsMap.lookup "nse-1"
        = none
      ∧ (exampleClient.Unregister exampleHelpers exampleNextOwner {}
            { name := "nse-1" }).returned
        = .pair (some ()) none :=
  ⟨(C13_unregister_checks_after_downstream.2.1 exampleClient exampleHelpers exampleNext {}
      { name := "nse-1" } "spiffe-b" "denied" (by decide) rfl rfl rfl).1,
    (C13_unregister_checks_after_downstream.2.1 exampleClient exampleHelpers exampleNext {}
      { name := "nse-1" } "spiffe-b" "denied" (by decide) rfl rfl rfl).2.1,
    (C13_unregister_checks_after_downstream.1 exampleClient exampleHelpers exampleNext {}
      { name := "nse-1" } (by decide)).1,
    by decide,
    ((C13_unregister_checks_after_downstream.2.2.2 exampleClient exampleHelpers
        exampleNextOwner {} { name := "nse-1" } (by decide)).1
      ⟨rfl, "spiffe-a", rfl, rfl⟩).2.2.1,
    ((C13_unregister_checks_after_downstream.2.2.2 exampleClient exampleHelpers
        exampleNextOwner {} { name := "nse-1" } (by decide)).1
      ⟨rfl, "spiffe-a", rfl, rfl⟩).2.1⟩

end authorize
